import Mathlib

/-!
# gtun client: connection lifecycle (`src/gtun/client.go`)

A shallow embedding of the tunnel client's supervisor loop (`Client.Run`), the
authorization handshake (`authorize`), the receiver (`rcv`), interface set-up
(`setupIface`), route installation (`insertRoute`, `execRoute`) and the three
session workers (`heartbeat`, `snd`, `rcv`) as an interleaving step machine.

Effects are recorded as a list of `Event`s in program order.  Everything the
operating system, the network or a library decides (the result of a dial, of a
write, of a decode, of an OS command, ...) is an explicit input of the function
that consumes it.
-/

namespace Gtun

/-! ## Data model -/

/-- A byte sequence (`[]byte`); the payloads are opaque to this file. -/
abbrev Bytes := List Nat

/-- Modelled from the spec: the command tags of package `common` (its source is not
part of `src/`): the spec's `ClientAuthorize`, `ServerAuthorize`, `ClientHeartbeat`,
`ServerHeartbeat`, `TunnelData`, under the names `client.go` uses for them; `other`
stands for every other tag a frame header can carry. -/
inductive Cmd where
  | C2S_AUTHORIZE
  | S2C_AUTHORIZE
  | C2S_HEARTBEAT
  | S2C_HEARTBEAT
  | C2C_DATA
  | other (tag : Nat)
  deriving DecidableEq, Repr

/-- The value of `runtime.GOOS`; `other` is any platform without a profile. -/
inductive GOOS where
  | linux
  | darwin
  | windows
  | other (name : String)
  deriving DecidableEq, Repr

/-- Error values.  `lib` is an error handed back by a library or system call
(net, json, os/exec, the frame codec); the other two are built by `client.go`. -/
inductive Err where
  | lib (msg : String)
  /-- Line 156: `fmt.Errorf("invalid authorize cmd %d", cmd)`. -/
  | invalidAuthorizeCmd (cmd : Cmd)
  /-- Line 275: `fmt.Errorf("run %s error %s", c, string(output))`. -/
  | runError (cmd : String) (args : List String) (output : String)
  deriving DecidableEq, Repr

/-- An observable effect.  A `glog` call is recorded by its level and leading text. -/
inductive Event where
  | log (level : String) (text : String)
  /-- Call of `time.Sleep(time.Second * n)`. -/
  | sleep (seconds : Nat)
  /-- Call of `client.god.Access()`. -/
  | access
  /-- Call of `net.DialTimeout("tcp", srv, time.Second*10)` in `conServer`. -/
  | dial (srv : String)
  | connWrite (conn : Nat) (buff : Bytes)
  | connDecode (conn : Nat)
  | connClose (conn : Nat)
  | ifceWrite (pkt : Bytes)
  /-- Call of `exec.Command(cmd, args...).CombinedOutput()`. -/
  | exec (cmd : String) (args : List String)
  /-- Entry into `setupIface(ifce, ip, gw)`. -/
  | callSetupIface (ip gw : String)
  /-- Lines 93-99: the goroutine that downloads and inserts the routes. -/
  | goRoutes (url devIP gw devName : String)
  | goIfaceRead
  | goHeartbeat
  | goSnd (conn : Nat)
  | goRcv (conn : Nat)
  | wgWait
  | wgDone
  deriving DecidableEq, Repr

/-- The record `common.C2SAuthorize` as `authorize` fills it in (lines 131-136). -/
structure C2SAuthorize where
  OS : Nat
  Version : String
  AccessIP : String
  Key : String
  deriving DecidableEq, Repr

/-- The record `common.S2CAuthorize`, with the three fields `Run` reads. -/
structure S2CAuthorize where
  AccessIP : String
  Gateway : String
  RouteScriptUrl : String
  deriving DecidableEq, Repr

/-- The result of one `common.Decode(conn)`. -/
abbrev DecodeResult := Except Err (Cmd × Bytes)

/-- The result of one `exec.Command(...).CombinedOutput()`. -/
structure ExecResult where
  output : String
  failed : Bool
  deriving DecidableEq, Repr

/-- What `client.go` uses from the Go runtime, `encoding/json` and package `common`. -/
structure Lib where
  GOOS : GOOS
  /-- The function `common.OSID`. -/
  OSID : Gtun.GOOS → Nat
  /-- The value of `common.Version()`. -/
  Version : String
  /-- The result of `json.Marshal` on an authorize request. -/
  Marshal : C2SAuthorize → Except Err Bytes
  /-- The function `common.Encode`: the frame and the error `client.go` discards. -/
  Encode : Cmd → Bytes → Bytes × Option Err
  /-- The result of `json.Unmarshal` into a `common.S2CAuthorize`. -/
  Unmarshal : Bytes → Except Err S2CAuthorize

/-- A connection returned by `conServer`, with what the peer and the network will
do on it during the handshake. -/
structure Conn where
  id : Nat
  /-- Error of the `conn.Write(buff)` of line 145, if any. -/
  writeErr : Option Err
  /-- Result of the `common.Decode(conn)` of line 150. -/
  decode : DecodeResult

/-- The type `God`: the discovery collaborator; `must` marks it mandatory. -/
structure God where
  must : Bool
  deriving DecidableEq, Repr

structure ClientConfig where
  serverAddr : String
  authKey : String
  deriving DecidableEq, Repr

structure Client where
  serverAddr : String
  authKey : String
  myip : String
  god : God
  deriving DecidableEq, Repr

/-- Function `NewClient` (lines 32-39); `god` is the value of `NewGod(&GodConfig{})`. -/
def NewClient (cfg : ClientConfig) (god : God) : Client :=
  { serverAddr := cfg.serverAddr, authKey := cfg.authKey, myip := "", god := god }

/-- Method `Client.first` (lines 117-119). -/
def Client.first (client : Client) : Bool :=
  client.myip == ""

/-! ## String helpers -/

/-- Worker of `stringsSplit`: `cur` holds the current field, reversed. -/
def splitSpaceAux : List Char → List Char → List String
  | [], cur => [String.mk cur.reverse]
  | c :: cs, cur =>
    if c = ' ' then String.mk cur.reverse :: splitSpaceAux cs []
    else splitSpaceAux cs (c :: cur)

/-- The call `strings.Split(s, " ")`. -/
def stringsSplit (s : String) : List String :=
  splitSpaceAux s.data []

/-- The `%d` verb on an `int`. -/
def fmtInt (i : Int) : String :=
  toString i

/-! ## Receiver -/

/-- The `for` loop of `rcv` (lines 173-192) over the successive results of
`common.Decode(conn)`; `ifceWriteErr i` is the error of `ifce.Write` in iteration `i`.
The Boolean tells whether the loop was left (`break`); it is `false` when the
results seen so far contain no error, that is, `rcv` is still blocked in `Decode`. -/
def rcvLoop (ifceWriteErr : Nat → Option Err) : Nat → List DecodeResult → List Event × Bool
  | _, [] => ([], false)
  | _, .error _ :: _ => ([.log "INFO" "decode"], true)
  | i, .ok (cmd, pkt) :: rest =>
    let body : List Event :=
      match cmd with
      | .S2C_HEARTBEAT => [.log "DEBUG" "heartbeat from srv"]
      | .C2C_DATA =>
        match ifceWriteErr i with
        | some _ => [.ifceWrite pkt, .log "ERROR" "ifce write"]
        | none => [.ifceWrite pkt]
      | _ => [.log "INFO" "unimplement cmd"]
    let r := rcvLoop ifceWriteErr (i + 1) rest
    (body ++ r.1, r.2)

/-- Function `rcv` (lines 169-193): the loop, then the deferred `conn.Close()` and `wg.Done()`. -/
def rcv (conn : Nat) (ifceWriteErr : Nat → Option Err) (decodes : List DecodeResult) :
    List Event × Bool :=
  let r := rcvLoop ifceWriteErr 0 decodes
  if r.2 then (r.1 ++ [.connClose conn, .wgDone], true) else (r.1, false)

/-! ## Interface set-up and routes -/

structure CMD where
  cmd : String
  args : List String
  deriving DecidableEq, Repr

/-- The command list `setupIface` builds (lines 247-270). -/
def setupCmdlist (goos : GOOS) (ifceName ip gw : String) : List CMD :=
  match goos with
  | .linux =>
    [⟨"ifconfig", [ifceName, "up"]⟩,
     ⟨"ip", stringsSplit ("addr add " ++ ip ++ "/24 dev " ++ ifceName)⟩]
  | .darwin =>
    [⟨"ifconfig", [ifceName, "up"]⟩,
     ⟨"ifconfig", stringsSplit (ifceName ++ " " ++ ip ++ " " ++ ip)⟩,
     ⟨"route", stringsSplit ("add -net " ++ gw ++ "/24 " ++ ip)⟩]
  | .windows =>
    [⟨"netsh", stringsSplit ("interface ip set address name=\"" ++ ifceName ++ "\" addr=" ++ ip ++
        " source=static mask=255.255.255.0 gateway=" ++ gw)⟩,
     ⟨"route", stringsSplit ("delete 0.0.0.0 " ++ gw)⟩]
  | .other _ => []

/-- The loop of lines 272-277; `results i` is the result of the `i`-th command. -/
def runCmdlist (results : Nat → ExecResult) : Nat → List CMD → List Event × Option Err
  | _, [] => ([], none)
  | i, c :: rest =>
    if (results i).failed then
      ([.exec c.cmd c.args], some (.runError c.cmd c.args (results i).output))
    else
      let r := runCmdlist results (i + 1) rest
      (.exec c.cmd c.args :: r.1, r.2)

/-- Function `setupIface` (lines 241-280). -/
def setupIface (goos : GOOS) (ifceName ip gw : String) (results : Nat → ExecResult) :
    List Event × Option Err :=
  runCmdlist results 0 (setupCmdlist goos ifceName ip gw)

/-- Function `execRoute` (lines 328-353); `result` is the result of the command it runs. -/
def execRoute (goos : GOOS) (address device tunip gateway : String) (ifceIndex : Int)
    (result : ExecResult) : List Event :=
  let run (cmd : CMD) : List Event :=
    if result.failed then
      [.exec cmd.cmd cmd.args, .log "DEBUG" "add fail", .log "DEBUG" "output"]
    else
      [.exec cmd.cmd cmd.args, .log "DEBUG" "output"]
  match goos with
  | .linux => run ⟨"ip", stringsSplit ("ro add " ++ address ++ " dev " ++ device)⟩
  | .darwin => run ⟨"route", stringsSplit ("add -net " ++ address ++ " " ++ tunip)⟩
  | .windows =>
    run ⟨"route", stringsSplit ("add " ++ address ++ " " ++ gateway ++ " if " ++ fmtInt ifceIndex)⟩
  | .other _ => []

/-- The loop of lines 317-319; `results i` is the result of the command for entry `i`. -/
def insertRouteLoop (goos : GOOS) (devName devIP gw : String) (ifceIndex : Int)
    (results : Nat → ExecResult) : Nat → List String → List Event
  | _, [] => []
  | i, address :: rest =>
    execRoute goos address devName devIP gw ifceIndex (results i) ++
      insertRouteLoop goos devName devIP gw ifceIndex results (i + 1) rest

/-- Function `insertRoute` (lines 305-321); `lookup` is the result of
`net.InterfaceByName(devName)`: the interface index, or `none` for an error. -/
def insertRoute (goos : GOOS) (lookup : Option Int) (results : Nat → ExecResult)
    (routedIPS : List String) (devIP gw devName : String) : List Event :=
  let rest (ifceIndex : Int) : List Event :=
    [.log "INFO" "inserting routes"] ++
      insertRouteLoop goos devName devIP gw ifceIndex results 0 routedIPS ++
      [.log "INFO" "inserted routes, routes count:"]
  match lookup with
  | none => if goos = .windows then [] else rest (-1)
  | some index => rest index

/-! ## Authorization handshake -/

/-- Function `authorize` (lines 130-167): the events on the connection and the result. -/
def authorize (lib : Lib) (conn : Conn) (accessIP key : String) :
    List Event × Except Err S2CAuthorize :=
  let c2sauthorize : C2SAuthorize :=
    { OS := lib.OSID lib.GOOS, Version := lib.Version, AccessIP := accessIP, Key := key }
  match lib.Marshal c2sauthorize with
  | .error err => ([], .error err)
  | .ok payload =>
    let buff := (lib.Encode .C2S_AUTHORIZE payload).1
    match conn.writeErr with
    | some err => ([.connWrite conn.id buff], .error err)
    | none =>
      match conn.decode with
      | .error err => ([.connWrite conn.id buff, .connDecode conn.id], .error err)
      | .ok (cmd, resp) =>
        if cmd ≠ .S2C_AUTHORIZE then
          ([.connWrite conn.id buff, .connDecode conn.id], .error (.invalidAuthorizeCmd cmd))
        else
          match lib.Unmarshal resp with
          | .error err => ([.connWrite conn.id buff, .connDecode conn.id], .error err)
          | .ok s2cauthorize =>
            ([.connWrite conn.id buff, .connDecode conn.id], .ok s2cauthorize)

/-! ## Reconnection supervisor -/

/-- What the environment does during one iteration of the `for` loop of `Client.Run`. -/
structure CycleEnv where
  /-- Result of `client.god.Access()`: the address and the error, if any. -/
  access : String × Option Err
  /-- Result of the dial in `conServer(server)`. -/
  dial : Except Err Conn
  /-- Results of the commands `setupIface` runs, by position. -/
  setupExec : Nat → ExecResult
  /-- Whether the three workers all exit, that is, whether `wg.Wait()` returns. -/
  sessionEnds : Bool

/-- Function `conServer` (lines 121-128); `dialed` is the result of
`net.DialTimeout("tcp", srv, time.Second*10)`. -/
def conServer (dialed : Except Err Conn) : Except Err Conn :=
  match dialed with
  | .error err => .error err
  | .ok tcp => .ok tcp

/-- Lines 51-81 of `Client.Run`: resolve a server address, connect and authorize.
The result is `none` when the iteration is abandoned (`continue`), and the
connection with the server's answer otherwise. -/
def handshake (lib : Lib) (client : Client) (env : CycleEnv) :
    List Event × Option (Conn × S2CAuthorize) :=
  let server := env.access.1
  let err := env.access.2
  if err.isSome && client.god.must then
    ([.access, .log "ERROR" "get server address fail: ", .sleep 3], none)
  else
    let server := if server == "" then client.serverAddr else server
    if server == "" then
      ([.access, .log "ERROR" "empty server", .sleep 3], none)
    else
      match conServer env.dial with
      | .error _ =>
        ([.access, .dial server, .log "ERROR" "connect to server fail: ", .sleep 3], none)
      | .ok conn =>
        let a := authorize lib conn client.myip client.authKey
        match a.2 with
        | .error _ =>
          ([.access, .dial server, .log "INFO" "connect to"] ++ a.1 ++
            [.log "ERROR" "auth fail: ", .sleep 3], none)
        | .ok s2c =>
          ([.access, .dial server, .log "INFO" "connect to"] ++ a.1, some (conn, s2c))

/-- One iteration of the `for` loop of `Client.Run` (lines 51-113): the client
afterwards, the events of the iteration, and whether the loop goes on to a further
iteration (it does not when `wg.Wait()` never returns). -/
def cycle (lib : Lib) (ifceName : String) (client : Client) (env : CycleEnv) :
    Client × List Event × Bool :=
  let h := handshake lib client env
  match h.2 with
  | none => (client, h.1, true)
  | some (conn, s2c) =>
    let running (pre : List Event) : Client × List Event × Bool :=
      ({ client with myip := s2c.AccessIP },
        pre ++ [.goHeartbeat, .goSnd conn.id, .goRcv conn.id, .wgWait] ++
          (if env.sessionEnds then [.log "INFO" "reconnecting"] else []),
        env.sessionEnds)
    if client.first then
      let s := setupIface lib.GOOS ifceName s2c.AccessIP s2c.Gateway env.setupExec
      match s.2 with
      | some _ =>
        (client,
          h.1 ++ [.callSetupIface s2c.AccessIP s2c.Gateway] ++ s.1 ++
            [.log "ERROR" "setupIface", .sleep 3],
          true)
      | none =>
        running (h.1 ++ [.callSetupIface s2c.AccessIP s2c.Gateway] ++ s.1 ++
          [.goRoutes s2c.RouteScriptUrl s2c.AccessIP s2c.Gateway ifceName])
    else
      running h.1

/-- The `for` loop of `Client.Run` over the environments of its successive
iterations: the client at the end and the events of each iteration that ran. -/
def runLoop (lib : Lib) (ifceName : String) : Client → List CycleEnv → Client × List (List Event)
  | client, [] => (client, [])
  | client, env :: envs =>
    let r := cycle lib ifceName client env
    if r.2.2 then
      let rest := runLoop lib ifceName r.1 envs
      (rest.1, r.2.1 :: rest.2)
    else
      (r.1, [r.2.1])

/-- Method `Client.Run` (lines 41-115); `newIfce` is the result of `NewIfce(opts.tap)`,
the name of the interface on success. -/
def Client.Run (lib : Lib) (client : Client) (newIfce : Except Err String)
    (envs : List CycleEnv) : Client × List Event :=
  match newIfce with
  | .error _ => (client, [.log "ERROR" "NewIfce"])
  | .ok ifceName =>
    let r := runLoop lib ifceName client envs
    (r.1, .goIfaceRead :: r.2.flatten)

/-- Number of calls of `setupIface` recorded in a list of events. -/
def setupCalls (evs : List Event) : Nat :=
  (evs.filter fun e => match e with
    | .callSetupIface _ _ => true
    | _ => false).length

/-- The OS commands recorded in a list of events. -/
def execsOf (evs : List Event) : List CMD :=
  evs.filterMap fun e => match e with
    | .exec cmd args => some ⟨cmd, args⟩
    | _ => none

/-- The packets written to the virtual interface, as recorded in a list of events. -/
def ifceWrites (evs : List Event) : List Bytes :=
  evs.filterMap fun e => match e with
    | .ifceWrite pkt => some pkt
    | _ => none

/-- The durations of the cooldown sleeps recorded in a list of events. -/
def sleepsOf (evs : List Event) : List Nat :=
  evs.filterMap fun e => match e with
    | .sleep n => some n
    | _ => none

/-- The addresses dialed, as recorded in a list of events. -/
def dialsOf (evs : List Event) : List String :=
  evs.filterMap fun e => match e with
    | .dial srv => some srv
    | _ => none

/-- Whether a worker of a session was started in a list of events. -/
def startsWorker (evs : List Event) : Bool :=
  evs.any fun e => match e with
    | .goHeartbeat => true
    | .goSnd _ => true
    | .goRcv _ => true
    | _ => false

/-! ## Session workers

The three workers of a session (`heartbeat`, `snd`, `rcv`) and the long-lived
`ifaceRead` run concurrently.  They are modelled as an interleaving machine: the
state records where each goroutine stands, and a step is one goroutine moving on.
`sndqueue` is unbuffered (`make(chan []byte)`, line 48), so a send on it completes
only together with the receive of line 201, the only receive there is. -/

/-- Where `heartbeat` stands: in the `select` (line 216), in the send of line 222,
or returned. -/
inductive HeartbeatAt where
  | select
  | send
  | returned
  deriving DecidableEq, Repr

/-- Where `snd` stands: in the receive of line 201, in `conn.Write` (line 203), or
exited. -/
inductive SndAt where
  | receive
  | write
  | exited
  deriving DecidableEq, Repr

/-- Where `rcv` stands: in `common.Decode` (line 174), or exited. -/
inductive RcvAt where
  | decode
  | exited
  deriving DecidableEq, Repr

/-- Where `ifaceRead` stands: in `ifce.Read` (line 230), in the send of line 237, or
exited. -/
inductive IfaceReadAt where
  | read
  | send
  | exited
  deriving DecidableEq, Repr

structure Session where
  heartbeat : HeartbeatAt
  snd : SndAt
  rcv : RcvAt
  ifaceRead : IfaceReadAt
  /-- Whether `close(stop)` has run. -/
  stopClosed : Bool
  /-- Whether `conn.Close()` has run. -/
  connClosed : Bool
  /-- The counter of the `sync.WaitGroup`. -/
  wg : Nat
  deriving DecidableEq, Repr

/-- The session right after lines 103-109: `wg.Add(3)`, a fresh `stop`, the three
workers started; `reader` is where the long-lived `ifaceRead` stands. -/
def Session.start (reader : IfaceReadAt) : Session :=
  { heartbeat := .select, snd := .receive, rcv := .decode, ifaceRead := reader,
    stopClosed := false, connClosed := false, wg := 3 }

/-- One goroutine moving on. -/
inductive Step where
  /-- In `heartbeat`, `case <-time.After(time.Second * 3)` is taken (lines 220-221). -/
  | timer
  /-- In `heartbeat`, `case <-stop` is taken: return, then the deferred `wg.Done()`. -/
  | stopSeen
  /-- The send of line 222 meets the receive of line 201. -/
  | heartbeatSent
  /-- In `ifaceRead`, `ifce.Read` returns a packet (line 230). -/
  | ifaceRead
  /-- In `ifaceRead`, `ifce.Read` fails (lines 231-234). -/
  | ifaceReadErr
  /-- The send of line 237 meets the receive of line 201. -/
  | packetSent
  /-- In `snd`, `conn.Write` succeeds (lines 203-205). -/
  | writeOk
  /-- In `snd`, `conn.Write` fails: `break`, then the deferred `close(stop)`,
  `conn.Close()` and `wg.Done()`. -/
  | writeErr
  /-- In `rcv`, `common.Decode` returns a frame, which is handled (lines 174-191). -/
  | frame
  /-- In `rcv`, `common.Decode` fails: `break`, then the deferred `conn.Close()` and
  `wg.Done()`. -/
  | decodeErr
  deriving DecidableEq, Repr

/-- The state after a step, or `none` when the step cannot be taken. -/
def Session.step (s : Session) : Step → Option Session
  | .timer =>
    if s.heartbeat = .select then some { s with heartbeat := .send } else none
  | .stopSeen =>
    if s.heartbeat = .select ∧ s.stopClosed = true then
      some { s with heartbeat := .returned, wg := s.wg - 1 }
    else none
  | .heartbeatSent =>
    if s.heartbeat = .send ∧ s.snd = .receive then
      some { s with heartbeat := .select, snd := .write }
    else none
  | .ifaceRead =>
    if s.ifaceRead = .read then some { s with ifaceRead := .send } else none
  | .ifaceReadErr =>
    if s.ifaceRead = .read then some { s with ifaceRead := .exited } else none
  | .packetSent =>
    if s.ifaceRead = .send ∧ s.snd = .receive then
      some { s with ifaceRead := .read, snd := .write }
    else none
  | .writeOk =>
    if s.snd = .write ∧ s.connClosed = false then some { s with snd := .receive } else none
  | .writeErr =>
    if s.snd = .write then
      some { s with snd := .exited, stopClosed := true, connClosed := true, wg := s.wg - 1 }
    else none
  | .frame =>
    if s.rcv = .decode ∧ s.connClosed = false then some s else none
  | .decodeErr =>
    if s.rcv = .decode then
      some { s with rcv := .exited, connClosed := true, wg := s.wg - 1 }
    else none

/-- The state after a sequence of steps, or `none` when one of them cannot be taken. -/
def Session.run : Session → List Step → Option Session
  | s, [] => some s
  | s, st :: rest =>
    match s.step st with
    | none => none
    | some s' => Session.run s' rest

/-- Whether `wg.Wait()` (line 111) returns in this state. -/
def Session.waitReturns (s : Session) : Bool :=
  s.wg == 0

/-- The payloads of the `C2C_DATA` frames of a list of frames, in order. -/
def dataPayloads (frames : List (Cmd × Bytes)) : List Bytes :=
  (frames.filter fun f => f.1 = Cmd.C2C_DATA).map Prod.snd

/-! ## Example inputs -/

/-- Three answers of a server: grant 0 assigns 10.8.0.2, grant 1 assigns 10.8.0.5,
every other grant assigns the empty access IP. -/
def exampleGrant : Nat → S2CAuthorize
  | 0 => ⟨"10.8.0.2", "10.8.0.1", "http://r/routes"⟩
  | 1 => ⟨"10.8.0.5", "10.8.0.1", "http://r/routes"⟩
  | _ => ⟨"", "10.8.0.1", "http://r/routes"⟩

/-- A library on a given platform in which serialisation always succeeds: a request
is serialised to the length of its access IP, a frame is the payload behind a
one-byte tag, and a reply payload `[n]` parses as `exampleGrant n`. -/
def exampleLib (goos : GOOS) : Lib :=
  { GOOS := goos
    OSID := fun _ => 1
    Version := "1.0"
    Marshal := fun r => .ok [r.AccessIP.length]
    Encode := fun cmd payload => ((if cmd = .C2S_AUTHORIZE then 3 else 1) :: payload, none)
    Unmarshal := fun resp =>
      match resp with
      | [n] => .ok (exampleGrant n)
      | _ => .error (.lib "unexpected end of JSON input") }

/-- A connection on which the write succeeds and the server answers with grant `n`. -/
def grantingConn (id n : Nat) : Conn :=
  { id := id, writeErr := none, decode := .ok (.S2C_AUTHORIZE, [n]) }

/-- Every OS command succeeds. -/
def execAllOk : Nat → ExecResult :=
  fun _ => ⟨"", false⟩

/-- An iteration in which discovery fails with an empty address, the dial succeeds,
the server answers with grant `n`, every set-up command succeeds and the session
ends. -/
def grantingEnv (id n : Nat) : CycleEnv :=
  { access := ("", some (.lib "god unreachable"))
    dial := .ok (grantingConn id n)
    setupExec := execAllOk
    sessionEnds := true }

/-- An iteration like `grantingEnv id n`, except that the second set-up command
fails. -/
def setupFailingEnv (id n : Nat) : CycleEnv :=
  { grantingEnv id n with
    setupExec := fun i => ⟨"RTNETLINK answers: Operation not permitted", i == 1⟩ }

/-- An iteration in which the dial succeeds and the server's first frame is a
heartbeat, so that authorization fails. -/
def rejectingEnv (id : Nat) : CycleEnv :=
  { access := ("", some (.lib "god unreachable"))
    dial := .ok { id := id, writeErr := none, decode := .ok (.S2C_HEARTBEAT, []) }
    setupExec := execAllOk
    sessionEnds := true }

/-- An iteration in which discovery reports an error together with an address. -/
def staleDiscoveryEnv (id n : Nat) : CycleEnv :=
  { grantingEnv id n with access := ("198.51.100.9:9399", some (.lib "god: stale answer")) }

/-- A client with a static server address, an optional discovery service and no
access IP yet. -/
def exampleClient : Client :=
  NewClient ⟨"203.0.113.7:9399", "secret"⟩ ⟨false⟩

/-! ## Properties of the receiver -/

theorem rcvLoop_frames (w : Nat → Option Err) (frames : List (Cmd × Bytes)) :
    ∀ (i : Nat) (rest : List DecodeResult),
      rcvLoop w i (frames.map Except.ok ++ rest) =
        ((rcvLoop w i (frames.map Except.ok)).1 ++ (rcvLoop w (i + frames.length) rest).1,
          (rcvLoop w (i + frames.length) rest).2) := by
  induction frames with
  | nil => intro i rest; simp [rcvLoop]
  | cons f fs ih =>
    intro i rest
    obtain ⟨cmd, pkt⟩ := f
    have h := ih (i + 1) rest
    have e : i + (fs.length + 1) = i + 1 + fs.length := by omega
    simp only [List.map_cons, List.cons_append, rcvLoop, List.length_cons, List.append_assoc, e]
    rw [show (List.map Except.ok fs).append rest = List.map Except.ok fs ++ rest from rfl, h]

theorem rcvLoop_frames_only (w : Nat → Option Err) (frames : List (Cmd × Bytes)) :
    ∀ i : Nat,
      (rcvLoop w i (frames.map Except.ok)).2 = false ∧
      ifceWrites (rcvLoop w i (frames.map Except.ok)).1 = dataPayloads frames ∧
      (∀ c, Event.connClose c ∉ (rcvLoop w i (frames.map Except.ok)).1) ∧
      Event.wgDone ∉ (rcvLoop w i (frames.map Except.ok)).1 := by
  induction frames with
  | nil => intro i; simp [rcvLoop, ifceWrites, dataPayloads]
  | cons f fs ih =>
    intro i
    obtain ⟨cmd, pkt⟩ := f
    obtain ⟨h1, h2, h3, h4⟩ := ih (i + 1)
    simp only [ifceWrites, dataPayloads] at h2 ⊢
    cases cmd <;> cases hw : w i <;>
      simp [rcvLoop, hw, h1, h2, h3, h4, List.filterMap_append, List.filterMap_cons,
        List.filter_cons]

/-- C9: for every sequence of frames decoded up to the first decode error (whatever
is scripted after it, and whichever interface writes fail), `rcv` leaves its loop,
writes to the virtual interface exactly the payloads of the `C2C_DATA` frames, each
once and in arrival order (so nothing for a heartbeat or an unknown command), and
its last two effects are the close of the connection and `wg.Done()`, neither of
which happens earlier; as long as no decode has failed `rcv` has not left its loop
and has not closed the connection. -/
theorem rcv_writes_exactly_data_payloads (conn : Nat) (w : Nat → Option Err)
    (frames : List (Cmd × Bytes)) (e : Err) (later : List DecodeResult) :
    (rcv conn w (frames.map Except.ok ++ Except.error e :: later)).2 = true ∧
    ifceWrites (rcv conn w (frames.map Except.ok ++ Except.error e :: later)).1 =
      dataPayloads frames ∧
    (∃ body, (rcv conn w (frames.map Except.ok ++ Except.error e :: later)).1 =
        body ++ [Event.connClose conn, Event.wgDone] ∧
      (∀ c, Event.connClose c ∉ body) ∧ Event.wgDone ∉ body) ∧
    (rcv conn w (frames.map Except.ok)).2 = false ∧
    ifceWrites (rcv conn w (frames.map Except.ok)).1 = dataPayloads frames ∧
    (∀ c, Event.connClose c ∉ (rcv conn w (frames.map Except.ok)).1) := by
  obtain ⟨h1, h2, h3, h4⟩ := rcvLoop_frames_only w frames 0
  have hsplit := rcvLoop_frames w frames 0 (Except.error e :: later)
  have herr : rcvLoop w (0 + frames.length) (Except.error e :: later) =
      ([Event.log "INFO" "decode"], true) := by simp [rcvLoop]
  rw [herr] at hsplit
  have hdone : rcv conn w (frames.map Except.ok ++ Except.error e :: later) =
      (((rcvLoop w 0 (frames.map Except.ok)).1 ++ [Event.log "INFO" "decode"]) ++
        [Event.connClose conn, Event.wgDone], true) := by
    simp [rcv, hsplit]
  have hblocked : rcv conn w (frames.map Except.ok) =
      ((rcvLoop w 0 (frames.map Except.ok)).1, false) := by
    simp [rcv, h1]
  refine ⟨by rw [hdone], ?_, ⟨_, by rw [hdone], ?_, ?_⟩, by rw [hblocked], ?_, ?_⟩
  · rw [hdone]
    simp only [ifceWrites] at h2 ⊢
    simp [List.filterMap_append, h2]
  · intro c
    simp [h3 c]
  · simp [h4]
  · rw [hblocked]; exact h2
  · rw [hblocked]; exact h3

/-! ## Properties of route installation -/

theorem execsOf_append (a b : List Event) : execsOf (a ++ b) = execsOf a ++ execsOf b := by
  simp [execsOf, List.filterMap_append]

theorem execsOf_insertRouteLoop (goos : GOOS) (devName devIP gw : String) (ifceIndex : Int)
    (results : Nat → ExecResult) (routedIPS : List String) :
    ∀ i : Nat,
      execsOf (insertRouteLoop goos devName devIP gw ifceIndex results i routedIPS) =
        routedIPS.flatMap fun address =>
          execsOf (execRoute goos address devName devIP gw ifceIndex ⟨"", false⟩) := by
  induction routedIPS with
  | nil => intro i; simp [insertRouteLoop, execsOf]
  | cons a rest ih =>
    intro i
    have hhead : execsOf (execRoute goos a devName devIP gw ifceIndex (results i)) =
        execsOf (execRoute goos a devName devIP gw ifceIndex ⟨"", false⟩) := by
      cases goos <;> cases hf : (results i).failed <;> simp [execRoute, execsOf, hf]
    simp [insertRouteLoop, execsOf_append, ih (i + 1), hhead]

theorem flatMap_singleton_eq_map {α β : Type} (f : α → β) (g : α → List β)
    (h : ∀ a, g a = [f a]) (l : List α) : l.flatMap g = l.map f := by
  induction l with
  | nil => rfl
  | cons a rest ih => simp only [List.flatMap_cons, List.map_cons, h a, ih, List.singleton_append]

theorem execsOf_insertRoute_body (goos : GOOS) (devName devIP gw : String) (idx : Int)
    (results : Nat → ExecResult) (routedIPS : List String) :
    execsOf ([Event.log "INFO" "inserting routes"] ++
        insertRouteLoop goos devName devIP gw idx results 0 routedIPS ++
        [Event.log "INFO" "inserted routes, routes count:"]) =
      routedIPS.flatMap fun address =>
        execsOf (execRoute goos address devName devIP gw idx ⟨"", false⟩) := by
  rw [execsOf_append, execsOf_append, execsOf_insertRouteLoop]
  have h1 : execsOf [Event.log "INFO" "inserting routes"] = [] := rfl
  have h2 : execsOf [Event.log "INFO" "inserted routes, routes count:"] = [] := rfl
  rw [h1, h2, List.nil_append, List.append_nil]

/-- C8 (amended): on linux and darwin (whether or not the interface is found by
name), and on windows when the interface is found by name, `insertRoute` runs
exactly one route-add command per entry of the route list, in list order and with
the platform's argument shape, whichever of those commands fail; on windows, when
the interface is not found by name, `insertRoute` has no effect at all: it returns
without issuing any command, for every route list. -/
theorem insertRoute_one_command_per_entry (results : Nat → ExecResult)
    (routedIPS : List String) (devIP gw devName : String) :
    (∀ lookup : Option Int,
      execsOf (insertRoute .linux lookup results routedIPS devIP gw devName) =
        routedIPS.map fun address =>
          ⟨"ip", stringsSplit ("ro add " ++ address ++ " dev " ++ devName)⟩) ∧
    (∀ lookup : Option Int,
      execsOf (insertRoute .darwin lookup results routedIPS devIP gw devName) =
        routedIPS.map fun address =>
          ⟨"route", stringsSplit ("add -net " ++ address ++ " " ++ devIP)⟩) ∧
    (∀ index : Int,
      execsOf (insertRoute .windows (some index) results routedIPS devIP gw devName) =
        routedIPS.map fun address =>
          ⟨"route",
            stringsSplit ("add " ++ address ++ " " ++ gw ++ " if " ++ fmtInt index)⟩) ∧
    insertRoute .windows none results routedIPS devIP gw devName = [] ∧
    execsOf (insertRoute .windows none results routedIPS devIP gw devName) = [] := by
  refine ⟨fun lookup => ?_, fun lookup => ?_, fun index => ?_, rfl, rfl⟩
  · have e : insertRoute .linux lookup results routedIPS devIP gw devName =
        [Event.log "INFO" "inserting routes"] ++
        insertRouteLoop .linux devName devIP gw (match lookup with | none => -1 | some i => i)
          results 0 routedIPS ++
        [Event.log "INFO" "inserted routes, routes count:"] := by
      cases lookup <;> rfl
    rw [e, execsOf_insertRoute_body]
    exact flatMap_singleton_eq_map _ _ (fun a => rfl) _
  · have e : insertRoute .darwin lookup results routedIPS devIP gw devName =
        [Event.log "INFO" "inserting routes"] ++
        insertRouteLoop .darwin devName devIP gw (match lookup with | none => -1 | some i => i)
          results 0 routedIPS ++
        [Event.log "INFO" "inserted routes, routes count:"] := by
      cases lookup <;> rfl
    rw [e, execsOf_insertRoute_body]
    exact flatMap_singleton_eq_map _ _ (fun a => rfl) _
  · have e : insertRoute .windows (some index) results routedIPS devIP gw devName =
        [Event.log "INFO" "inserting routes"] ++
        insertRouteLoop .windows devName devIP gw index results 0 routedIPS ++
        [Event.log "INFO" "inserted routes, routes count:"] := rfl
    rw [e, execsOf_insertRoute_body]
    exact flatMap_singleton_eq_map _ _ (fun a => rfl) _

/-- C8 (counterexample): on windows, when the interface is not found by name,
`insertRoute` issues no command at all for a list of two routes. -/
theorem insertRoute_windows_lookup_failure :
    insertRoute .windows none execAllOk ["10.0.0.0/8", "172.16.0.0/12"]
      "10.8.0.2" "10.8.0.1" "tun0" = [] ∧
    (execsOf (insertRoute .windows none execAllOk ["10.0.0.0/8", "172.16.0.0/12"]
      "10.8.0.2" "10.8.0.1" "tun0")).length ≠ ["10.0.0.0/8", "172.16.0.0/12"].length := by
  constructor
  · rfl
  · decide

/-! ## Properties of the handshake -/

/-- C4: provided the request serialises (as `json.Marshal` does for a record of
strings and numbers), `authorize` returns an error exactly when the write of the
request fails, the decode of the reply fails, the decoded command is not
`S2C_AUTHORIZE`, or the payload does not parse; a reply with another command is
always rejected; and a successful result is the parsed payload of an
`S2C_AUTHORIZE` reply. -/
theorem authorize_error_iff (lib : Lib) (conn : Conn) (accessIP key : String)
    (hm : ∃ payload,
      lib.Marshal ⟨lib.OSID lib.GOOS, lib.Version, accessIP, key⟩ = .ok payload) :
    ((∃ err, (authorize lib conn accessIP key).2 = .error err) ↔
      (conn.writeErr ≠ none ∨ (∃ err, conn.decode = .error err) ∨
        (∃ cmd resp, conn.decode = .ok (cmd, resp) ∧ cmd ≠ .S2C_AUTHORIZE) ∨
        (∃ cmd resp err, conn.decode = .ok (cmd, resp) ∧ lib.Unmarshal resp = .error err))) ∧
    (∀ cmd resp, conn.decode = .ok (cmd, resp) → cmd ≠ .S2C_AUTHORIZE →
      ∃ err, (authorize lib conn accessIP key).2 = .error err) ∧
    (∀ s2c, (authorize lib conn accessIP key).2 = .ok s2c ↔
      (conn.writeErr = none ∧
        ∃ resp, conn.decode = .ok (.S2C_AUTHORIZE, resp) ∧ lib.Unmarshal resp = .ok s2c)) := by
  obtain ⟨payload, hp⟩ := hm
  obtain ⟨id, writeErr, decode⟩ := conn
  cases writeErr with
  | some werr => simp [authorize, hp]
  | none =>
    cases decode with
    | error derr => simp [authorize, hp]
    | ok frame =>
      obtain ⟨cmd, resp⟩ := frame
      by_cases hc : cmd = .S2C_AUTHORIZE
      · subst hc
        cases hu : lib.Unmarshal resp with
        | error uerr =>
          simp [authorize, hp, hu]
          exact ⟨_, _, ⟨rfl, rfl⟩, _, hu⟩
        | ok s2c => simp [authorize, hp, hu]
      · simp [authorize, hp, hc]

/-- C4 (witness): the example library serialises every request; a reply carrying a
heartbeat command is rejected. -/
theorem authorize_error_iff_witness :
    (∃ payload, (exampleLib .linux).Marshal
        ⟨(exampleLib .linux).OSID (exampleLib .linux).GOOS, (exampleLib .linux).Version,
          "", "secret"⟩ = .ok payload) ∧
    ∃ err, (authorize (exampleLib .linux) ⟨7, none, .ok (.S2C_HEARTBEAT, [])⟩ "" "secret").2 =
      .error err :=
  ⟨⟨[0], rfl⟩,
    (authorize_error_iff (exampleLib .linux) ⟨7, none, .ok (.S2C_HEARTBEAT, [])⟩ "" "secret"
      ⟨[0], rfl⟩).2.1 .S2C_HEARTBEAT [] rfl (by decide)⟩

/-! ## Properties of the supervisor: one iteration -/

theorem authorize_events (lib : Lib) (conn : Conn) (accessIP key : String) :
    ∀ e ∈ (authorize lib conn accessIP key).1,
      (∃ buff, e = Event.connWrite conn.id buff) ∨ e = Event.connDecode conn.id := by
  intro e he
  obtain ⟨id, writeErr, decode⟩ := conn
  cases hm : lib.Marshal ⟨lib.OSID lib.GOOS, lib.Version, accessIP, key⟩ with
  | error err => simp [authorize, hm] at he
  | ok payload =>
    cases writeErr with
    | some werr =>
      simp [authorize, hm] at he
      subst he; simp
    | none =>
      cases decode with
      | error derr =>
        simp [authorize, hm] at he
        rcases he with rfl | rfl <;> simp
      | ok frame =>
        obtain ⟨cmd, resp⟩ := frame
        by_cases hc : cmd = .S2C_AUTHORIZE
        · cases hu : lib.Unmarshal resp <;>
          · simp [authorize, hm, hc, hu] at he
            rcases he with rfl | rfl <;> simp
        · simp [authorize, hm, hc] at he
          rcases he with rfl | rfl <;> simp

theorem runCmdlist_events (results : Nat → ExecResult) (cmds : List CMD) :
    ∀ (i : Nat), ∀ e ∈ (runCmdlist results i cmds).1, ∃ c a, e = Event.exec c a := by
  induction cmds with
  | nil => intro i e he; simp [runCmdlist] at he
  | cons c rest ih =>
    intro i e he
    unfold runCmdlist at he
    split at he
    · simp at he; exact ⟨_, _, he⟩
    · simp at he
      rcases he with he | he
      · exact ⟨_, _, he⟩
      · exact ih (i + 1) e he

theorem setupIface_events (goos : GOOS) (ifceName ip gw : String) (results : Nat → ExecResult) :
    ∀ e ∈ (setupIface goos ifceName ip gw results).1, ∃ c a, e = Event.exec c a :=
  runCmdlist_events results _ 0

theorem handshake_some (lib : Lib) (client : Client) (env : CycleEnv) (conn : Conn)
    (s2c : S2CAuthorize) (h : (handshake lib client env).2 = some (conn, s2c)) :
    env.dial = .ok conn ∧
    (authorize lib conn client.myip client.authKey).2 = .ok s2c ∧
    (handshake lib client env).1 =
      [Event.access,
        Event.dial (if env.access.1 = "" then client.serverAddr else env.access.1),
        Event.log "INFO" "connect to"] ++ (authorize lib conn client.myip client.authKey).1 := by
  by_cases h1 : env.access.2.isSome = true ∧ client.god.must = true
  · simp [handshake, conServer, h1] at h
  · by_cases h2 : (if env.access.1 = "" then client.serverAddr else env.access.1) = ""
    · simp [handshake, conServer, h1, h2] at h
    · cases hd : env.dial with
      | error derr => simp [handshake, conServer, h1, h2, hd] at h
      | ok c =>
        cases ha : (authorize lib c client.myip client.authKey).2 with
        | error aerr => simp [handshake, conServer, h1, h2, hd, ha] at h
        | ok g =>
          simp [handshake, conServer, h1, h2, hd, ha] at h
          obtain ⟨rfl, rfl⟩ := h
          simp [handshake, conServer, h1, h2, hd, ha]

theorem handshake_none (lib : Lib) (client : Client) (env : CycleEnv)
    (h : (handshake lib client env).2 = none) :
    ∃ pre, (handshake lib client env).1 = pre ++ [Event.sleep 3] ∧
      ∀ e ∈ pre, e = Event.access ∨ (∃ srv, e = Event.dial srv) ∨
        (∃ level text, e = Event.log level text) ∨
        (∃ c buff, e = Event.connWrite c buff) ∨ (∃ c, e = Event.connDecode c) := by
  by_cases h1 : env.access.2.isSome = true ∧ client.god.must = true
  · exact ⟨[Event.access, Event.log "ERROR" "get server address fail: "],
      by simp [handshake, conServer, h1], by simp⟩
  · by_cases h2 : (if env.access.1 = "" then client.serverAddr else env.access.1) = ""
    · exact ⟨[Event.access, Event.log "ERROR" "empty server"], by simp [handshake, conServer, h1, h2],
        by simp⟩
    · cases hd : env.dial with
      | error derr =>
        exact ⟨[Event.access,
          Event.dial (if env.access.1 = "" then client.serverAddr else env.access.1),
          Event.log "ERROR" "connect to server fail: "], by simp [handshake, conServer, h1, h2, hd],
          by simp⟩
      | ok c =>
        cases ha : (authorize lib c client.myip client.authKey).2 with
        | ok g => simp [handshake, conServer, h1, h2, hd, ha] at h
        | error aerr =>
          refine ⟨[Event.access,
            Event.dial (if env.access.1 = "" then client.serverAddr else env.access.1),
            Event.log "INFO" "connect to"] ++ (authorize lib c client.myip client.authKey).1 ++
            [Event.log "ERROR" "auth fail: "], by simp [handshake, conServer, h1, h2, hd, ha], ?_⟩
          intro e he
          simp only [List.mem_append, List.mem_cons, List.mem_singleton, List.not_mem_nil,
            or_false] at he
          rcases he with ((rfl | rfl | rfl) | he) | rfl
          · simp
          · simp
          · simp
          · rcases authorize_events lib c client.myip client.authKey e he with ⟨b, rfl⟩ | rfl
            · simp
            · simp
          · simp

theorem cycle_abandoned (lib : Lib) (ifceName : String) (client : Client) (env : CycleEnv)
    (h : (handshake lib client env).2 = none) :
    cycle lib ifceName client env = (client, (handshake lib client env).1, true) := by
  simp [cycle, h]

theorem cycle_skip (lib : Lib) (ifceName : String) (client : Client) (env : CycleEnv)
    (conn : Conn) (s2c : S2CAuthorize)
    (h : (handshake lib client env).2 = some (conn, s2c)) (hip : client.myip ≠ "") :
    cycle lib ifceName client env =
      ({ client with myip := s2c.AccessIP },
        (handshake lib client env).1 ++
          [Event.goHeartbeat, Event.goSnd conn.id, Event.goRcv conn.id, Event.wgWait] ++
          (if env.sessionEnds then [Event.log "INFO" "reconnecting"] else []),
        env.sessionEnds) := by
  simp [cycle, h, Client.first, hip]

theorem cycle_setup_failed (lib : Lib) (ifceName : String) (client : Client) (env : CycleEnv)
    (conn : Conn) (s2c : S2CAuthorize) (err : Err)
    (h : (handshake lib client env).2 = some (conn, s2c)) (hip : client.myip = "")
    (hs : (setupIface lib.GOOS ifceName s2c.AccessIP s2c.Gateway env.setupExec).2 = some err) :
    cycle lib ifceName client env =
      (client,
        (handshake lib client env).1 ++ [Event.callSetupIface s2c.AccessIP s2c.Gateway] ++
          (setupIface lib.GOOS ifceName s2c.AccessIP s2c.Gateway env.setupExec).1 ++
          [Event.log "ERROR" "setupIface", Event.sleep 3],
        true) := by
  simp [cycle, h, Client.first, hip, hs]

theorem cycle_setup_ok (lib : Lib) (ifceName : String) (client : Client) (env : CycleEnv)
    (conn : Conn) (s2c : S2CAuthorize)
    (h : (handshake lib client env).2 = some (conn, s2c)) (hip : client.myip = "")
    (hs : (setupIface lib.GOOS ifceName s2c.AccessIP s2c.Gateway env.setupExec).2 = none) :
    cycle lib ifceName client env =
      ({ client with myip := s2c.AccessIP },
        (handshake lib client env).1 ++ [Event.callSetupIface s2c.AccessIP s2c.Gateway] ++
          (setupIface lib.GOOS ifceName s2c.AccessIP s2c.Gateway env.setupExec).1 ++
          [Event.goRoutes s2c.RouteScriptUrl s2c.AccessIP s2c.Gateway ifceName] ++
          [Event.goHeartbeat, Event.goSnd conn.id, Event.goRcv conn.id, Event.wgWait] ++
          (if env.sessionEnds then [Event.log "INFO" "reconnecting"] else []),
        env.sessionEnds) := by
  simp [cycle, h, Client.first, hip, hs]

theorem handshake_events (lib : Lib) (client : Client) (env : CycleEnv) :
    ∀ e ∈ (handshake lib client env).1, e = Event.access ∨ (∃ srv, e = Event.dial srv) ∨
      (∃ level text, e = Event.log level text) ∨
      (∃ c buff, e = Event.connWrite c buff) ∨ (∃ c, e = Event.connDecode c) ∨
      e = Event.sleep 3 := by
  intro e he
  cases h : (handshake lib client env).2 with
  | none =>
    obtain ⟨pre, hpre, hall⟩ := handshake_none lib client env h
    rw [hpre] at he
    simp only [List.mem_append, List.mem_singleton] at he
    rcases he with he | rfl
    · rcases hall e he with rfl | ⟨_, rfl⟩ | ⟨_, _, rfl⟩ | ⟨_, _, rfl⟩ | ⟨_, rfl⟩ <;> simp
    · simp
  | some r =>
    obtain ⟨conn, s2c⟩ := r
    obtain ⟨_, _, htr⟩ := handshake_some lib client env conn s2c h
    rw [htr] at he
    simp only [List.mem_append, List.mem_cons, List.mem_singleton, List.not_mem_nil,
      or_false] at he
    rcases he with (rfl | rfl | rfl) | he
    · simp
    · simp
    · simp
    · rcases authorize_events lib conn client.myip client.authKey e he with ⟨b, rfl⟩ | rfl
      · simp
      · simp

theorem setupCalls_append (a b : List Event) :
    setupCalls (a ++ b) = setupCalls a + setupCalls b := by
  simp [setupCalls, List.filter_append]

theorem setupCalls_eq_zero (l : List Event)
    (h : ∀ e ∈ l, ∀ ip gw, e ≠ Event.callSetupIface ip gw) : setupCalls l = 0 := by
  induction l with
  | nil => rfl
  | cons e rest ih =>
    have hrest : setupCalls rest = 0 := ih (fun e' he' => h e' (List.mem_cons_of_mem _ he'))
    have he := h e (List.mem_cons_self _ _)
    cases e <;> first
      | exact absurd rfl (he _ _)
      | simpa [setupCalls] using hrest

theorem setupCalls_handshake (lib : Lib) (client : Client) (env : CycleEnv) :
    setupCalls (handshake lib client env).1 = 0 := by
  apply setupCalls_eq_zero
  intro e he ip gw
  rcases handshake_events lib client env e he with
    rfl | ⟨_, rfl⟩ | ⟨_, _, rfl⟩ | ⟨_, _, rfl⟩ | ⟨_, rfl⟩ | rfl <;> simp

theorem setupCalls_setupIface (goos : GOOS) (ifceName ip gw : String)
    (results : Nat → ExecResult) : setupCalls (setupIface goos ifceName ip gw results).1 = 0 := by
  apply setupCalls_eq_zero
  intro e he ip gw
  obtain ⟨_, _, rfl⟩ := setupIface_events goos ifceName _ _ results e he
  simp

/-! ## Properties of the supervisor: sequences of iterations -/

theorem runLoop_no_setup_when_configured (lib : Lib) (ifceName : String) (client : Client)
    (rest : List CycleEnv) :
    ∀ ip : String, ip ≠ "" →
      (∀ env ∈ rest, ∀ ip' : String,
        (handshake lib { client with myip := ip' } env).2 = none ∨
        ∃ conn s2c, (handshake lib { client with myip := ip' } env).2 = some (conn, s2c) ∧
          s2c.AccessIP ≠ "") →
      ∀ t ∈ (runLoop lib ifceName { client with myip := ip } rest).2, setupCalls t = 0 := by
  induction rest with
  | nil => intro ip _ _ t ht; simp [runLoop] at ht
  | cons env rest ih =>
    intro ip hip hrest t ht
    have hrest' : ∀ env ∈ rest, ∀ ip' : String,
        (handshake lib { client with myip := ip' } env).2 = none ∨
        ∃ conn s2c, (handshake lib { client with myip := ip' } env).2 = some (conn, s2c) ∧
          s2c.AccessIP ≠ "" := fun e he => hrest e (List.mem_cons_of_mem _ he)
    rcases hrest env (List.mem_cons_self _ _) ip with hnone | ⟨conn, s2c, hsome, hne⟩
    · have hc := cycle_abandoned lib ifceName { client with myip := ip } env hnone
      simp only [runLoop, hc, if_true, List.mem_cons] at ht
      rcases ht with rfl | ht
      · exact setupCalls_handshake _ _ _
      · exact ih ip hip hrest' t ht
    · have hc := cycle_skip lib ifceName { client with myip := ip } env conn s2c hsome hip
      have htr : setupCalls ((handshake lib { client with myip := ip } env).1 ++
          [Event.goHeartbeat, Event.goSnd conn.id, Event.goRcv conn.id, Event.wgWait] ++
          (if env.sessionEnds then [Event.log "INFO" "reconnecting"] else [])) = 0 := by
        rw [setupCalls_append, setupCalls_append, setupCalls_handshake]
        cases env.sessionEnds <;> simp [setupCalls]
      cases hse : env.sessionEnds with
      | false =>
        simp only [runLoop, hc, hse, List.mem_singleton, Bool.false_eq_true, if_false] at ht
        simp only [hse, Bool.false_eq_true, if_false] at htr
        rw [ht]
        exact htr
      | true =>
        simp only [runLoop, hc, hse, if_true, List.mem_cons] at ht
        simp only [hse, if_true] at htr
        rcases ht with rfl | ht
        · exact htr
        · exact ih s2c.AccessIP hne hrest' t ht

/-- Where the one-time configuration does hold: starting from an empty stored
access IP, when the first iteration
is authorized, is granted a non-empty access IP and its interface configuration
succeeds, and every later iteration is either abandoned before Running or granted
a non-empty access IP (which may differ from the stored one), `setupIface` is called
exactly once in the first iteration and in no later iteration. -/
theorem setupIface_once_for_nonempty_grants (lib : Lib) (ifceName : String) (client : Client)
    (env0 : CycleEnv) (conn0 : Conn) (s2c0 : S2CAuthorize) (rest : List CycleEnv)
    (hip : client.myip = "")
    (hfirst : (handshake lib client env0).2 = some (conn0, s2c0))
    (hgrant : s2c0.AccessIP ≠ "")
    (hsetup : (setupIface lib.GOOS ifceName s2c0.AccessIP s2c0.Gateway env0.setupExec).2 = none)
    (hrest : ∀ env ∈ rest, ∀ ip : String,
      (handshake lib { client with myip := ip } env).2 = none ∨
      ∃ conn s2c, (handshake lib { client with myip := ip } env).2 = some (conn, s2c) ∧
        s2c.AccessIP ≠ "") :
    ∃ t ts, (runLoop lib ifceName client (env0 :: rest)).2 = t :: ts ∧
      Event.callSetupIface s2c0.AccessIP s2c0.Gateway ∈ t ∧
      setupCalls t = 1 ∧ (∀ t' ∈ ts, setupCalls t' = 0) ∧
      setupCalls (Client.Run lib client (.ok ifceName) (env0 :: rest)).2 = 1 := by
  have hc := cycle_setup_ok lib ifceName client env0 conn0 s2c0 hfirst hip hsetup
  have hlater := runLoop_no_setup_when_configured lib ifceName client rest s2c0.AccessIP
    hgrant hrest
  have ht : setupCalls ((handshake lib client env0).1 ++
      [Event.callSetupIface s2c0.AccessIP s2c0.Gateway] ++
      (setupIface lib.GOOS ifceName s2c0.AccessIP s2c0.Gateway env0.setupExec).1 ++
      [Event.goRoutes s2c0.RouteScriptUrl s2c0.AccessIP s2c0.Gateway ifceName] ++
      [Event.goHeartbeat, Event.goSnd conn0.id, Event.goRcv conn0.id, Event.wgWait] ++
      (if env0.sessionEnds then [Event.log "INFO" "reconnecting"] else [])) = 1 := by
    simp only [setupCalls_append, setupCalls_handshake, setupCalls_setupIface]
    cases env0.sessionEnds <;> simp [setupCalls]
  have hflat : ∀ ts : List (List Event), (∀ t' ∈ ts, setupCalls t' = 0) →
      setupCalls ts.flatten = 0 := by
    intro ts
    induction ts with
    | nil => intro _; rfl
    | cons a as ih =>
      intro h
      rw [List.flatten_cons, setupCalls_append, h a (List.mem_cons_self _ _),
        ih (fun t' ht' => h t' (List.mem_cons_of_mem _ ht'))]
  cases hse : env0.sessionEnds with
  | false =>
    refine ⟨_, [], by simp only [runLoop, hc, hse]; rfl, by simp, ht, by simp, ?_⟩
    simp only [Client.Run, runLoop, hc, hse]
    simp only [hse] at ht
    simpa [setupCalls] using ht
  | true =>
    refine ⟨_, _, by simp only [runLoop, hc, hse, if_true], by simp, ht, hlater, ?_⟩
    simp only [Client.Run, runLoop, hc, hse, if_true]
    simp only [hse] at ht
    have h0 := hflat _ hlater
    rw [show ∀ (x : Event) (l : List Event), setupCalls (x :: l) = setupCalls [x] + setupCalls l
      from fun x l => setupCalls_append [x] l, List.flatten_cons, setupCalls_append, h0]
    simpa [setupCalls] using ht

/-- The hypotheses of `setupIface_once_for_nonempty_grants` hold for a first grant of
10.8.0.2 followed by a grant of 10.8.0.5. -/
theorem setupIface_once_for_nonempty_grants_witness :
    exampleClient.myip = "" ∧
    (handshake (exampleLib .linux) exampleClient (grantingEnv 1 0)).2 =
      some (grantingConn 1 0, exampleGrant 0) ∧
    ∃ t ts, (runLoop (exampleLib .linux) "tun0" exampleClient
        [grantingEnv 1 0, grantingEnv 2 1]).2 = t :: ts ∧
      Event.callSetupIface (exampleGrant 0).AccessIP (exampleGrant 0).Gateway ∈ t ∧
      setupCalls t = 1 ∧ (∀ t' ∈ ts, setupCalls t' = 0) ∧
      setupCalls (Client.Run (exampleLib .linux) exampleClient (.ok "tun0")
        [grantingEnv 1 0, grantingEnv 2 1]).2 = 1 :=
  ⟨rfl, rfl,
    setupIface_once_for_nonempty_grants (exampleLib .linux) "tun0" exampleClient
      (grantingEnv 1 0) (grantingConn 1 0) (exampleGrant 0) [grantingEnv 2 1] rfl rfl
      (by decide) rfl
      (fun env he ip => by
        rw [List.mem_singleton] at he
        subst he
        exact Or.inr ⟨grantingConn 2 1, exampleGrant 1, rfl, by decide⟩)⟩

/-- C1 (the code at the failing input): three iterations, each authorized and each
reaching Running, the first configuration succeeding; the server grants 10.8.0.2,
then the empty access IP, then 10.8.0.5.  Line 102 stores the empty grant, so
`first()` is true again in the third iteration: `setupIface` is called in the first
iteration and again in the third, twice in all, although the comment of lines 83-84
says the interface is set up only the first time. -/
theorem setupIface_again_after_empty_grant :
    exampleClient.myip = "" ∧
    (runLoop (exampleLib .linux) "tun0" exampleClient
      [grantingEnv 1 0, grantingEnv 2 2, grantingEnv 3 1]).2.map
      (fun t => (setupCalls t, startsWorker t)) = [(1, true), (0, true), (1, true)] ∧
    setupCalls (Client.Run (exampleLib .linux) exampleClient (.ok "tun0")
      [grantingEnv 1 0, grantingEnv 2 2, grantingEnv 3 1]).2 = 2 :=
  ⟨rfl, rfl, rfl⟩

theorem startsWorker_append (a b : List Event) :
    startsWorker (a ++ b) = (startsWorker a || startsWorker b) := by
  simp [startsWorker, List.any_append]

theorem startsWorker_handshake (lib : Lib) (client : Client) (env : CycleEnv) :
    startsWorker (handshake lib client env).1 = false := by
  simp only [startsWorker, List.any_eq_false]
  intro e he
  rcases handshake_events lib client env e he with
    rfl | ⟨_, rfl⟩ | ⟨_, _, rfl⟩ | ⟨_, _, rfl⟩ | ⟨_, rfl⟩ | rfl <;> simp

theorem startsWorker_setupIface (goos : GOOS) (ifceName ip gw : String)
    (results : Nat → ExecResult) :
    startsWorker (setupIface goos ifceName ip gw results).1 = false := by
  simp only [startsWorker, List.any_eq_false]
  intro e he
  obtain ⟨_, _, rfl⟩ := setupIface_events goos ifceName _ _ results e he
  simp

theorem wgWait_not_mem_handshake (lib : Lib) (client : Client) (env : CycleEnv) :
    Event.wgWait ∉ (handshake lib client env).1 := by
  intro he
  rcases handshake_events lib client env _ he with
    h | ⟨_, h⟩ | ⟨_, _, h⟩ | ⟨_, _, h⟩ | ⟨_, h⟩ | h <;> simp at h

theorem wgWait_not_mem_setupIface (goos : GOOS) (ifceName ip gw : String)
    (results : Nat → ExecResult) :
    Event.wgWait ∉ (setupIface goos ifceName ip gw results).1 := by
  intro he
  obtain ⟨_, _, h⟩ := setupIface_events goos ifceName _ _ results _ he
  simp at h

theorem runLoop_cons_continue (lib : Lib) (ifceName : String) (client : Client)
    (env : CycleEnv) (envs : List CycleEnv) (h : (cycle lib ifceName client env).2.2 = true) :
    runLoop lib ifceName client (env :: envs) =
      ((runLoop lib ifceName (cycle lib ifceName client env).1 envs).1,
        (cycle lib ifceName client env).2.1 ::
          (runLoop lib ifceName (cycle lib ifceName client env).1 envs).2) := by
  show (if (cycle lib ifceName client env).2.2 = true then _ else _) = _
  rw [if_pos h]

theorem runLoop_abandoned (lib : Lib) (ifceName : String) (client : Client)
    (mids more : List CycleEnv) (h : ∀ m ∈ mids, (handshake lib client m).2 = none) :
    runLoop lib ifceName client (mids ++ more) =
      ((runLoop lib ifceName client more).1,
        mids.map (fun m => (handshake lib client m).1) ++ (runLoop lib ifceName client more).2) := by
  induction mids with
  | nil => simp
  | cons m rest ih =>
    have hm := cycle_abandoned lib ifceName client m (h m (List.mem_cons_self _ _))
    have ih' := ih (fun m' hm' => h m' (List.mem_cons_of_mem _ hm'))
    rw [List.cons_append, runLoop_cons_continue _ _ _ _ _ (by rw [hm]), hm, ih']
    rfl

/-- C2: when `setupIface` fails in an iteration that started with an empty stored
access IP, the client is unchanged at the end of the iteration (the stored access IP
is still empty), no worker is started and `wg.Wait()` is not reached, and the loop
goes on; after any number of iterations abandoned before or during authorization,
the next iteration whose authorization succeeds calls `setupIface` again, with the
address and gateway granted then. -/
theorem setupIface_failure_is_retried (lib : Lib) (ifceName : String) (client : Client)
    (env : CycleEnv) (conn : Conn) (s2c : S2CAuthorize) (err : Err)
    (mids : List CycleEnv) (env' : CycleEnv) (conn' : Conn) (s2c' : S2CAuthorize)
    (hip : client.myip = "")
    (h : (handshake lib client env).2 = some (conn, s2c))
    (hs : (setupIface lib.GOOS ifceName s2c.AccessIP s2c.Gateway env.setupExec).2 = some err)
    (hmids : ∀ m ∈ mids, (handshake lib client m).2 = none)
    (h' : (handshake lib client env').2 = some (conn', s2c')) :
    (cycle lib ifceName client env).1 = client ∧
    (cycle lib ifceName client env).1.myip = "" ∧
    startsWorker (cycle lib ifceName client env).2.1 = false ∧
    Event.wgWait ∉ (cycle lib ifceName client env).2.1 ∧
    (cycle lib ifceName client env).2.2 = true ∧
    (runLoop lib ifceName client (env :: mids)).1.myip = "" ∧
    ∃ ts t, (runLoop lib ifceName client (env :: (mids ++ [env']))).2 = ts ++ [t] ∧
      ts.length = mids.length + 1 ∧
      (∀ t' ∈ ts, startsWorker t' = false) ∧
      Event.callSetupIface s2c'.AccessIP s2c'.Gateway ∈ t := by
  have hc := cycle_setup_failed lib ifceName client env conn s2c err h hip hs
  have hno : startsWorker ((handshake lib client env).1 ++
      [Event.callSetupIface s2c.AccessIP s2c.Gateway] ++
      (setupIface lib.GOOS ifceName s2c.AccessIP s2c.Gateway env.setupExec).1 ++
      [Event.log "ERROR" "setupIface", Event.sleep 3]) = false := by
    simp only [startsWorker_append, startsWorker_handshake, startsWorker_setupIface]
    rfl
  have hcall : Event.callSetupIface s2c'.AccessIP s2c'.Gateway ∈
      (cycle lib ifceName client env').2.1 := by
    cases hs' : (setupIface lib.GOOS ifceName s2c'.AccessIP s2c'.Gateway env'.setupExec).2 with
    | some err' =>
      rw [cycle_setup_failed lib ifceName client env' conn' s2c' err' h' hip hs']
      simp
    | none =>
      rw [cycle_setup_ok lib ifceName client env' conn' s2c' h' hip hs']
      simp
  refine ⟨by rw [hc], by rw [hc]; exact hip, by rw [hc]; exact hno, ?_, by rw [hc], ?_, ?_⟩
  · rw [hc]
    have h1 := wgWait_not_mem_handshake lib client env
    have h2 := wgWait_not_mem_setupIface lib.GOOS ifceName s2c.AccessIP s2c.Gateway
      env.setupExec
    simp [h1, h2]
  · have := runLoop_abandoned lib ifceName client mids [] hmids
    simp only [List.append_nil] at this
    rw [runLoop_cons_continue _ _ _ _ _ (by rw [hc]), hc, this]
    exact hip
  · have hrun := runLoop_abandoned lib ifceName client mids [env'] hmids
    have hlast : (runLoop lib ifceName client [env']).2 = [(cycle lib ifceName client env').2.1] := by
      cases hb : (cycle lib ifceName client env').2.2 <;> simp [runLoop, hb]
    refine ⟨(cycle lib ifceName client env).2.1 :: mids.map (fun m => (handshake lib client m).1),
      (cycle lib ifceName client env').2.1, ?_, by simp, ?_, hcall⟩
    · rw [runLoop_cons_continue _ _ _ _ _ (by rw [hc]), hc, hrun, hlast]
      rfl
    · intro t' ht'
      simp only [List.mem_cons, List.mem_map] at ht'
      rcases ht' with rfl | ⟨m, _, rfl⟩
      · rw [hc]; exact hno
      · exact startsWorker_handshake lib client m

/-- C2 (witness): the second set-up command fails in the first iteration; an
iteration whose authorization fails follows; the third iteration is authorized. -/
theorem setupIface_failure_is_retried_witness :
    exampleClient.myip = "" ∧
    (handshake (exampleLib .linux) exampleClient (setupFailingEnv 1 0)).2 =
      some (grantingConn 1 0, exampleGrant 0) ∧
    (setupIface (exampleLib .linux).GOOS "tun0" (exampleGrant 0).AccessIP
      (exampleGrant 0).Gateway (setupFailingEnv 1 0).setupExec).2 =
      some (.runError "ip" ["addr", "add", "10.8.0.2/24", "dev", "tun0"]
        "RTNETLINK answers: Operation not permitted") ∧
    (handshake (exampleLib .linux) exampleClient (rejectingEnv 2)).2 = none ∧
    (handshake (exampleLib .linux) exampleClient (grantingEnv 3 1)).2 =
      some (grantingConn 3 1, exampleGrant 1) ∧
    (cycle (exampleLib .linux) "tun0" exampleClient (setupFailingEnv 1 0)).1.myip = "" ∧
    ∃ ts t, (runLoop (exampleLib .linux) "tun0" exampleClient
        (setupFailingEnv 1 0 :: ([rejectingEnv 2] ++ [grantingEnv 3 1]))).2 = ts ++ [t] ∧
      ts.length = [rejectingEnv 2].length + 1 ∧
      (∀ t' ∈ ts, startsWorker t' = false) ∧
      Event.callSetupIface (exampleGrant 1).AccessIP (exampleGrant 1).Gateway ∈ t :=
  have w := setupIface_failure_is_retried (exampleLib .linux) "tun0" exampleClient
    (setupFailingEnv 1 0) (grantingConn 1 0) (exampleGrant 0)
    (.runError "ip" ["addr", "add", "10.8.0.2/24", "dev", "tun0"]
      "RTNETLINK answers: Operation not permitted")
    [rejectingEnv 2] (grantingEnv 3 1) (grantingConn 3 1) (exampleGrant 1) rfl rfl rfl
    (fun m hm => by rw [List.mem_singleton] at hm; subst hm; rfl) rfl
  ⟨rfl, rfl, rfl, rfl, rfl, w.2.1, w.2.2.2.2.2.2⟩

theorem authorize_request (lib : Lib) (conn : Conn) (accessIP key : String) (payload : Bytes)
    (hm : lib.Marshal ⟨lib.OSID lib.GOOS, lib.Version, accessIP, key⟩ = .ok payload) :
    Event.connWrite conn.id (lib.Encode .C2S_AUTHORIZE payload).1 ∈
      (authorize lib conn accessIP key).1 := by
  obtain ⟨id, writeErr, decode⟩ := conn
  cases writeErr with
  | some werr => simp [authorize, hm]
  | none =>
    cases decode with
    | error derr => simp [authorize, hm]
    | ok frame =>
      obtain ⟨cmd, resp⟩ := frame
      by_cases hc : cmd = .S2C_AUTHORIZE
      · cases hu : lib.Unmarshal resp <;> simp [authorize, hm, hc, hu]
      · simp [authorize, hm, hc]

theorem handshake_request (lib : Lib) (client : Client) (env : CycleEnv) (conn : Conn)
    (payload : Bytes)
    (h1 : ¬(env.access.2.isSome = true ∧ client.god.must = true))
    (h2 : (if env.access.1 = "" then client.serverAddr else env.access.1) ≠ "")
    (hd : env.dial = .ok conn)
    (hm : lib.Marshal ⟨lib.OSID lib.GOOS, lib.Version, client.myip, client.authKey⟩ =
      .ok payload) :
    Event.connWrite conn.id (lib.Encode .C2S_AUTHORIZE payload).1 ∈
      (handshake lib client env).1 := by
  have hreq := authorize_request lib conn client.myip client.authKey payload hm
  cases ha : (authorize lib conn client.myip client.authKey).2 with
  | error aerr =>
    simp [handshake, conServer, h1, h2, hd, ha]
    exact hreq
  | ok g =>
    simp [handshake, conServer, h1, h2, hd, ha]
    exact hreq

theorem handshake_subset_cycle (lib : Lib) (ifceName : String) (client : Client)
    (env : CycleEnv) :
    ∀ e ∈ (handshake lib client env).1, e ∈ (cycle lib ifceName client env).2.1 := by
  intro e he
  cases h : (handshake lib client env).2 with
  | none => rw [cycle_abandoned lib ifceName client env h]; exact he
  | some r =>
    obtain ⟨conn, s2c⟩ := r
    by_cases hip : client.myip = ""
    · cases hs : (setupIface lib.GOOS ifceName s2c.AccessIP s2c.Gateway env.setupExec).2 with
      | some err =>
        rw [cycle_setup_failed lib ifceName client env conn s2c err h hip hs]
        simp [he]
      | none =>
        rw [cycle_setup_ok lib ifceName client env conn s2c h hip hs]
        simp [he]
    · rw [cycle_skip lib ifceName client env conn s2c h hip]
      simp [he]

theorem handshake_no_config (lib : Lib) (client : Client) (env : CycleEnv) (e : Event)
    (he : e ∈ (handshake lib client env).1) :
    (∀ ip gw, e ≠ Event.callSetupIface ip gw) ∧ (∀ c a, e ≠ Event.exec c a) ∧
      (∀ u d g n, e ≠ Event.goRoutes u d g n) := by
  rcases handshake_events lib client env e he with
    rfl | ⟨_, rfl⟩ | ⟨_, _, rfl⟩ | ⟨_, _, rfl⟩ | ⟨_, rfl⟩ | rfl <;> simp

theorem wgWait_mem_cycle (lib : Lib) (ifceName : String) (client : Client) (env : CycleEnv)
    (hw : Event.wgWait ∈ (cycle lib ifceName client env).2.1) :
    ∃ conn s2c, (handshake lib client env).2 = some (conn, s2c) ∧
      (cycle lib ifceName client env).1 = { client with myip := s2c.AccessIP } := by
  cases h : (handshake lib client env).2 with
  | none =>
    rw [cycle_abandoned lib ifceName client env h] at hw
    exact absurd hw (wgWait_not_mem_handshake lib client env)
  | some r =>
    obtain ⟨conn, s2c⟩ := r
    refine ⟨conn, s2c, rfl, ?_⟩
    by_cases hip : client.myip = ""
    · cases hs : (setupIface lib.GOOS ifceName s2c.AccessIP s2c.Gateway env.setupExec).2 with
      | some err =>
        rw [cycle_setup_failed lib ifceName client env conn s2c err h hip hs] at hw
        have h1 := wgWait_not_mem_handshake lib client env
        have h2 := wgWait_not_mem_setupIface lib.GOOS ifceName s2c.AccessIP s2c.Gateway
          env.setupExec
        simp [h1, h2] at hw
      | none => rw [cycle_setup_ok lib ifceName client env conn s2c h hip hs]
    · rw [cycle_skip lib ifceName client env conn s2c h hip]

/-- C3: an iteration that reaches Running (`wg.Wait()` is reached) was authorized, and
the stored access IP afterwards is the access IP granted in it, whatever was stored
before; an iteration that starts with a non-empty stored access IP neither calls
`setupIface`, nor runs an OS command, nor starts the route goroutine, and when it is
authorized it reaches Running and stores the granted access IP; and after an
iteration that reached Running, the next iteration that gets as far as writing its
authorize request writes the request that carries the newly stored access IP. -/
theorem running_stores_granted_ip (lib : Lib) (ifceName : String) (client : Client)
    (env : CycleEnv) :
    (Event.wgWait ∈ (cycle lib ifceName client env).2.1 →
      ∃ conn s2c, (handshake lib client env).2 = some (conn, s2c) ∧
        (cycle lib ifceName client env).1.myip = s2c.AccessIP ∧
        ∀ (env' : CycleEnv) (conn' : Conn) (payload : Bytes),
          ¬(env'.access.2.isSome = true ∧ client.god.must = true) →
          (if env'.access.1 = "" then client.serverAddr else env'.access.1) ≠ "" →
          env'.dial = .ok conn' →
          lib.Marshal ⟨lib.OSID lib.GOOS, lib.Version, s2c.AccessIP, client.authKey⟩ =
            .ok payload →
          Event.connWrite conn'.id (lib.Encode .C2S_AUTHORIZE payload).1 ∈
            (cycle lib ifceName (cycle lib ifceName client env).1 env').2.1) ∧
    (client.myip ≠ "" →
      (∀ ip gw, Event.callSetupIface ip gw ∉ (cycle lib ifceName client env).2.1) ∧
      (∀ c a, Event.exec c a ∉ (cycle lib ifceName client env).2.1) ∧
      (∀ u d g n, Event.goRoutes u d g n ∉ (cycle lib ifceName client env).2.1) ∧
      ∀ conn s2c, (handshake lib client env).2 = some (conn, s2c) →
        Event.wgWait ∈ (cycle lib ifceName client env).2.1 ∧
        (cycle lib ifceName client env).1.myip = s2c.AccessIP) := by
  refine ⟨fun hw => ?_, fun hip => ?_⟩
  · obtain ⟨conn, s2c, h, hstore⟩ := wgWait_mem_cycle lib ifceName client env hw
    refine ⟨conn, s2c, h, by rw [hstore], fun env' conn' payload h1 h2 hd hm => ?_⟩
    rw [hstore]
    apply handshake_subset_cycle
    exact handshake_request lib { client with myip := s2c.AccessIP } env' conn' payload h1 h2
      hd hm
  · have hmem : ∀ e ∈ (cycle lib ifceName client env).2.1,
        e ∈ (handshake lib client env).1 ∨ e = Event.goHeartbeat ∨ (∃ c, e = Event.goSnd c) ∨
          (∃ c, e = Event.goRcv c) ∨ e = Event.wgWait ∨
          e = Event.log "INFO" "reconnecting" := by
      intro e he
      cases h : (handshake lib client env).2 with
      | none =>
        rw [cycle_abandoned lib ifceName client env h] at he
        exact Or.inl he
      | some r =>
        obtain ⟨conn, s2c⟩ := r
        rw [cycle_skip lib ifceName client env conn s2c h hip] at he
        simp only [List.mem_append, List.mem_cons, List.mem_singleton, List.not_mem_nil,
          or_false] at he
        rcases he with (he | rfl | rfl | rfl | rfl) | he
        · exact Or.inl he
        · simp
        · simp
        · simp
        · simp
        · simp at he
          obtain ⟨_, rfl⟩ := he
          simp
    have hcfg : ∀ e ∈ (cycle lib ifceName client env).2.1,
        (∀ ip gw, e ≠ Event.callSetupIface ip gw) ∧ (∀ c a, e ≠ Event.exec c a) ∧
          (∀ u d g n, e ≠ Event.goRoutes u d g n) := by
      intro e he
      rcases hmem e he with he | rfl | ⟨_, rfl⟩ | ⟨_, rfl⟩ | rfl | rfl
      · exact handshake_no_config lib client env e he
      all_goals simp
    refine ⟨fun ip gw he => (hcfg _ he).1 ip gw rfl, fun c a he => (hcfg _ he).2.1 c a rfl,
      fun u d g n he => (hcfg _ he).2.2 u d g n rfl, fun conn s2c h => ?_⟩
    rw [cycle_skip lib ifceName client env conn s2c h hip]
    exact ⟨by simp, rfl⟩

/-- C3 (witness): the client was granted 10.8.0.2 in a first iteration and is
granted 10.8.0.5 in the second, which does not configure the interface: the run
ends with 10.8.0.5 stored and has called `setupIface` once, with 10.8.0.2. -/
theorem running_stores_granted_ip_witness :
    (cycle (exampleLib .linux) "tun0" exampleClient (grantingEnv 1 0)).1.myip = "10.8.0.2" ∧
    Event.wgWait ∈ (cycle (exampleLib .linux) "tun0"
      (cycle (exampleLib .linux) "tun0" exampleClient (grantingEnv 1 0)).1
      (grantingEnv 2 1)).2.1 ∧
    (∃ conn s2c, (handshake (exampleLib .linux)
        (cycle (exampleLib .linux) "tun0" exampleClient (grantingEnv 1 0)).1
        (grantingEnv 2 1)).2 = some (conn, s2c) ∧
      (cycle (exampleLib .linux) "tun0"
        (cycle (exampleLib .linux) "tun0" exampleClient (grantingEnv 1 0)).1
        (grantingEnv 2 1)).1.myip = s2c.AccessIP) ∧
    (∀ ip gw, Event.callSetupIface ip gw ∉ (cycle (exampleLib .linux) "tun0"
      (cycle (exampleLib .linux) "tun0" exampleClient (grantingEnv 1 0)).1
      (grantingEnv 2 1)).2.1) ∧
    (Client.Run (exampleLib .linux) exampleClient (.ok "tun0")
      [grantingEnv 1 0, grantingEnv 2 1]).1.myip = "10.8.0.5" ∧
    (Client.Run (exampleLib .linux) exampleClient (.ok "tun0")
      [grantingEnv 1 0, grantingEnv 2 1]).2.filterMap
        (fun e => match e with
          | .callSetupIface ip gw => some (ip, gw)
          | _ => none) = [("10.8.0.2", "10.8.0.1")] :=
  have w := running_stores_granted_ip (exampleLib .linux) "tun0"
    (cycle (exampleLib .linux) "tun0" exampleClient (grantingEnv 1 0)).1 (grantingEnv 2 1)
  have hw : Event.wgWait ∈ (cycle (exampleLib .linux) "tun0"
      (cycle (exampleLib .linux) "tun0" exampleClient (grantingEnv 1 0)).1
      (grantingEnv 2 1)).2.1 := by decide
  ⟨rfl, hw,
    (w.1 hw).elim fun conn h => h.elim fun s2c h => ⟨conn, s2c, h.1, h.2.1⟩,
    (w.2 (by decide)).1, rfl, rfl⟩

theorem cycle_trace_split (lib : Lib) (ifceName : String) (client : Client) (env : CycleEnv) :
    ∃ tl, (cycle lib ifceName client env).2.1 = (handshake lib client env).1 ++ tl ∧
      ∀ e ∈ tl, (∃ ip gw, e = Event.callSetupIface ip gw) ∨ (∃ c a, e = Event.exec c a) ∨
        (∃ u d g n, e = Event.goRoutes u d g n) ∨ e = Event.goHeartbeat ∨
        (∃ c, e = Event.goSnd c) ∨ (∃ c, e = Event.goRcv c) ∨ e = Event.wgWait ∨
        (∃ level text, e = Event.log level text) ∨ e = Event.sleep 3 := by
  cases h : (handshake lib client env).2 with
  | none => exact ⟨[], by rw [cycle_abandoned lib ifceName client env h]; simp, by simp⟩
  | some r =>
    obtain ⟨conn, s2c⟩ := r
    have hsetup : ∀ e ∈ (setupIface lib.GOOS ifceName s2c.AccessIP s2c.Gateway env.setupExec).1,
        ∃ c a, e = Event.exec c a := setupIface_events _ _ _ _ _
    by_cases hip : client.myip = ""
    · cases hs : (setupIface lib.GOOS ifceName s2c.AccessIP s2c.Gateway env.setupExec).2 with
      | some err =>
        refine ⟨[Event.callSetupIface s2c.AccessIP s2c.Gateway] ++
          (setupIface lib.GOOS ifceName s2c.AccessIP s2c.Gateway env.setupExec).1 ++
          [Event.log "ERROR" "setupIface", Event.sleep 3], ?_, ?_⟩
        · rw [cycle_setup_failed lib ifceName client env conn s2c err h hip hs]
          simp
        · intro e he
          simp only [List.mem_append, List.mem_cons, List.mem_singleton, List.not_mem_nil,
            or_false] at he
          rcases he with (rfl | he) | rfl | rfl
          · simp
          · obtain ⟨c, a, rfl⟩ := hsetup e he; simp
          · simp
          · simp
      | none =>
        refine ⟨[Event.callSetupIface s2c.AccessIP s2c.Gateway] ++
          (setupIface lib.GOOS ifceName s2c.AccessIP s2c.Gateway env.setupExec).1 ++
          [Event.goRoutes s2c.RouteScriptUrl s2c.AccessIP s2c.Gateway ifceName] ++
          [Event.goHeartbeat, Event.goSnd conn.id, Event.goRcv conn.id, Event.wgWait] ++
          (if env.sessionEnds then [Event.log "INFO" "reconnecting"] else []), ?_, ?_⟩
        · rw [cycle_setup_ok lib ifceName client env conn s2c h hip hs]
          simp
        · intro e he
          simp only [List.mem_append, List.mem_cons, List.mem_singleton, List.not_mem_nil,
            or_false] at he
          rcases he with ((((rfl | he) | rfl) | rfl | rfl | rfl | rfl) | he)
          · simp
          · obtain ⟨c, a, rfl⟩ := hsetup e he; simp
          · simp
          · simp
          · simp
          · simp
          · simp
          · simp at he
            obtain ⟨_, rfl⟩ := he
            simp
    · refine ⟨[Event.goHeartbeat, Event.goSnd conn.id, Event.goRcv conn.id, Event.wgWait] ++
        (if env.sessionEnds then [Event.log "INFO" "reconnecting"] else []), ?_, ?_⟩
      · rw [cycle_skip lib ifceName client env conn s2c h hip]
        simp
      · intro e he
        simp only [List.mem_append, List.mem_cons, List.mem_singleton, List.not_mem_nil,
          or_false] at he
        rcases he with (rfl | rfl | rfl | rfl) | he
        · simp
        · simp
        · simp
        · simp
        · simp at he
          obtain ⟨_, rfl⟩ := he
          simp

theorem connClose_not_mem_cycle (lib : Lib) (ifceName : String) (client : Client)
    (env : CycleEnv) (c : Nat) : Event.connClose c ∉ (cycle lib ifceName client env).2.1 := by
  obtain ⟨tl, htr, htl⟩ := cycle_trace_split lib ifceName client env
  rw [htr]
  intro he
  rcases List.mem_append.mp he with he | he
  · rcases handshake_events lib client env _ he with
      h | ⟨_, h⟩ | ⟨_, _, h⟩ | ⟨_, _, h⟩ | ⟨_, h⟩ | h <;> simp at h
  · rcases htl _ he with
      ⟨_, _, h⟩ | ⟨_, _, h⟩ | ⟨_, _, _, _, h⟩ | h | ⟨_, h⟩ | ⟨_, h⟩ | h | ⟨_, _, h⟩ | h <;>
      simp at h

/-- C6 (the code at the failing input): the dial succeeds and the server's first
frame is a heartbeat, so `authorize` fails; the iteration logs the failure and
sleeps, and the connection (number 4) is never closed.  More generally no iteration
of the loop of `Client.Run` closes a connection itself. -/
theorem auth_failure_leaves_connection_open :
    (handshake (exampleLib .linux) exampleClient (rejectingEnv 4)).2 = none ∧
    (cycle (exampleLib .linux) "tun0" exampleClient (rejectingEnv 4)).2.1 =
      [Event.access, Event.dial "203.0.113.7:9399", Event.log "INFO" "connect to",
        Event.connWrite 4 [3, 0], Event.connDecode 4, Event.log "ERROR" "auth fail: ",
        Event.sleep 3] ∧
    ∀ (lib : Lib) (ifceName : String) (client : Client) (env : CycleEnv) (c : Nat),
      Event.connClose c ∉ (cycle lib ifceName client env).2.1 :=
  ⟨rfl, rfl, connClose_not_mem_cycle⟩

theorem sleepsOf_append (a b : List Event) : sleepsOf (a ++ b) = sleepsOf a ++ sleepsOf b := by
  simp [sleepsOf, List.filterMap_append]

theorem sleepsOf_eq_nil (l : List Event) (h : ∀ e ∈ l, ∀ n, e ≠ Event.sleep n) :
    sleepsOf l = [] := by
  induction l with
  | nil => rfl
  | cons e rest ih =>
    have hrest : sleepsOf rest = [] := ih (fun e' he' => h e' (List.mem_cons_of_mem _ he'))
    have he := h e (List.mem_cons_self _ _)
    cases e <;> first
      | exact absurd rfl (he _)
      | simpa [sleepsOf] using hrest

theorem dialsOf_append (a b : List Event) : dialsOf (a ++ b) = dialsOf a ++ dialsOf b := by
  simp [dialsOf, List.filterMap_append]

theorem dialsOf_eq_nil (l : List Event) (h : ∀ e ∈ l, ∀ srv, e ≠ Event.dial srv) :
    dialsOf l = [] := by
  induction l with
  | nil => rfl
  | cons e rest ih =>
    have hrest : dialsOf rest = [] := ih (fun e' he' => h e' (List.mem_cons_of_mem _ he'))
    have he := h e (List.mem_cons_self _ _)
    cases e <;> first
      | exact absurd rfl (he _)
      | simpa [dialsOf] using hrest

theorem sleepsOf_authorize (lib : Lib) (conn : Conn) (accessIP key : String) :
    sleepsOf (authorize lib conn accessIP key).1 = [] := by
  apply sleepsOf_eq_nil
  intro e he n
  rcases authorize_events lib conn accessIP key e he with ⟨_, rfl⟩ | rfl <;> simp

theorem dialsOf_authorize (lib : Lib) (conn : Conn) (accessIP key : String) :
    dialsOf (authorize lib conn accessIP key).1 = [] := by
  apply dialsOf_eq_nil
  intro e he n
  rcases authorize_events lib conn accessIP key e he with ⟨_, rfl⟩ | rfl <;> simp

theorem sleepsOf_setupIface (goos : GOOS) (ifceName ip gw : String)
    (results : Nat → ExecResult) : sleepsOf (setupIface goos ifceName ip gw results).1 = [] := by
  apply sleepsOf_eq_nil
  intro e he n
  obtain ⟨_, _, rfl⟩ := setupIface_events goos ifceName _ _ results e he
  simp

theorem sleepsOf_handshake_some (lib : Lib) (client : Client) (env : CycleEnv) (conn : Conn)
    (s2c : S2CAuthorize) (h : (handshake lib client env).2 = some (conn, s2c)) :
    sleepsOf (handshake lib client env).1 = [] := by
  obtain ⟨_, _, htr⟩ := handshake_some lib client env conn s2c h
  rw [htr, sleepsOf_append, sleepsOf_authorize]
  rfl

theorem sleepsOf_handshake_none (lib : Lib) (client : Client) (env : CycleEnv)
    (h : (handshake lib client env).2 = none) :
    sleepsOf (handshake lib client env).1 = [3] ∧
    (handshake lib client env).1.getLast? = some (Event.sleep 3) := by
  obtain ⟨pre, hpre, hall⟩ := handshake_none lib client env h
  have hp : sleepsOf pre = [] := by
    apply sleepsOf_eq_nil
    intro e he n
    rcases hall e he with rfl | ⟨_, rfl⟩ | ⟨_, _, rfl⟩ | ⟨_, _, rfl⟩ | ⟨_, rfl⟩ <;> simp
  rw [hpre, sleepsOf_append, hp]
  exact ⟨rfl, by simp⟩

theorem getLast_append_pair (l : List Event) (a b : Event) :
    (l ++ [a, b]).getLast? = some b := by
  have e : l ++ [a, b] = (l ++ [a]) ++ [b] := by simp
  rw [e, List.getLast?_append]
  rfl

theorem handshake_head (lib : Lib) (client : Client) (env : CycleEnv) :
    (handshake lib client env).1.head? = some Event.access := by
  by_cases h1 : env.access.2.isSome = true ∧ client.god.must = true
  · simp [handshake, conServer, h1]
  · by_cases h2 : (if env.access.1 = "" then client.serverAddr else env.access.1) = ""
    · simp [handshake, conServer, h1, h2]
    · cases hd : env.dial with
      | error derr => simp [handshake, conServer, h1, h2, hd]
      | ok c =>
        cases ha : (authorize lib c client.myip client.authKey).2 <;>
          simp [handshake, conServer, h1, h2, hd, ha]

/-- C5 (amended): every iteration starts by resolving.  An iteration that is
abandoned before Running (it never reaches `wg.Wait()`) sleeps exactly once, for 3
seconds, as its last action, and the loop goes on; an iteration that reaches Running
contains no sleep at all, so after a session has terminated the supervisor resolves
again without a cooldown. -/
theorem cooldown_only_when_abandoned (lib : Lib) (ifceName : String) (client : Client)
    (env : CycleEnv) :
    (cycle lib ifceName client env).2.1.head? = some Event.access ∧
    (Event.wgWait ∉ (cycle lib ifceName client env).2.1 →
      (cycle lib ifceName client env).2.1.getLast? = some (Event.sleep 3) ∧
      sleepsOf (cycle lib ifceName client env).2.1 = [3] ∧
      (cycle lib ifceName client env).2.2 = true) ∧
    (Event.wgWait ∈ (cycle lib ifceName client env).2.1 →
      sleepsOf (cycle lib ifceName client env).2.1 = []) := by
  have hhead : (cycle lib ifceName client env).2.1.head? = some Event.access := by
    obtain ⟨tl, htr, _⟩ := cycle_trace_split lib ifceName client env
    have hh := handshake_head lib client env
    rw [htr]
    cases hl : (handshake lib client env).1 with
    | nil => rw [hl] at hh; simp at hh
    | cons a rest => rw [hl] at hh; simpa using hh
  refine ⟨hhead, ?_, ?_⟩
  · intro hw
    cases h : (handshake lib client env).2 with
    | none =>
      rw [cycle_abandoned lib ifceName client env h]
      obtain ⟨h1, h2⟩ := sleepsOf_handshake_none lib client env h
      exact ⟨h2, h1, rfl⟩
    | some r =>
      obtain ⟨conn, s2c⟩ := r
      by_cases hip : client.myip = ""
      · cases hs : (setupIface lib.GOOS ifceName s2c.AccessIP s2c.Gateway env.setupExec).2 with
        | some err =>
          rw [cycle_setup_failed lib ifceName client env conn s2c err h hip hs]
          refine ⟨?_, ?_, rfl⟩
          · exact getLast_append_pair _ _ _
          · simp only [sleepsOf_append, sleepsOf_handshake_some lib client env conn s2c h,
              sleepsOf_setupIface]
            rfl
        | none =>
          rw [cycle_setup_ok lib ifceName client env conn s2c h hip hs] at hw
          simp at hw
      · rw [cycle_skip lib ifceName client env conn s2c h hip] at hw
        simp at hw
  · intro hw
    cases h : (handshake lib client env).2 with
    | none =>
      rw [cycle_abandoned lib ifceName client env h] at hw
      exact absurd hw (wgWait_not_mem_handshake lib client env)
    | some r =>
      obtain ⟨conn, s2c⟩ := r
      by_cases hip : client.myip = ""
      · cases hs : (setupIface lib.GOOS ifceName s2c.AccessIP s2c.Gateway env.setupExec).2 with
        | some err =>
          rw [cycle_setup_failed lib ifceName client env conn s2c err h hip hs] at hw
          have h1 := wgWait_not_mem_handshake lib client env
          have h2 := wgWait_not_mem_setupIface lib.GOOS ifceName s2c.AccessIP s2c.Gateway
            env.setupExec
          simp [h1, h2] at hw
        | none =>
          rw [cycle_setup_ok lib ifceName client env conn s2c h hip hs]
          simp only [sleepsOf_append, sleepsOf_handshake_some lib client env conn s2c h,
            sleepsOf_setupIface]
          cases env.sessionEnds <;> rfl
      · rw [cycle_skip lib ifceName client env conn s2c h hip]
        simp only [sleepsOf_append, sleepsOf_handshake_some lib client env conn s2c h]
        cases env.sessionEnds <;> rfl

/-- C5 (counterexample): two iterations; the first session terminates (`wg.Wait()`
returns) and the supervisor goes straight from the "reconnecting" log to the next
`Access()`: the whole run contains no sleep. -/
theorem no_cooldown_after_session :
    (Client.Run (exampleLib .linux) exampleClient (.ok "tun0")
      [grantingEnv 1 0, grantingEnv 2 1]).2 =
      [Event.goIfaceRead,
        Event.access, Event.dial "203.0.113.7:9399", Event.log "INFO" "connect to",
        Event.connWrite 1 [3, 0], Event.connDecode 1,
        Event.callSetupIface "10.8.0.2" "10.8.0.1",
        Event.exec "ifconfig" ["tun0", "up"],
        Event.exec "ip" ["addr", "add", "10.8.0.2/24", "dev", "tun0"],
        Event.goRoutes "http://r/routes" "10.8.0.2" "10.8.0.1" "tun0",
        Event.goHeartbeat, Event.goSnd 1, Event.goRcv 1, Event.wgWait,
        Event.log "INFO" "reconnecting",
        Event.access, Event.dial "203.0.113.7:9399", Event.log "INFO" "connect to",
        Event.connWrite 2 [3, 8], Event.connDecode 2,
        Event.goHeartbeat, Event.goSnd 2, Event.goRcv 2, Event.wgWait,
        Event.log "INFO" "reconnecting"] ∧
    sleepsOf (Client.Run (exampleLib .linux) exampleClient (.ok "tun0")
      [grantingEnv 1 0, grantingEnv 2 1]).2 = [] :=
  ⟨rfl, rfl⟩

theorem dialsOf_cycle (lib : Lib) (ifceName : String) (client : Client) (env : CycleEnv) :
    dialsOf (cycle lib ifceName client env).2.1 = dialsOf (handshake lib client env).1 := by
  obtain ⟨tl, htr, htl⟩ := cycle_trace_split lib ifceName client env
  have h0 : dialsOf tl = [] := by
    apply dialsOf_eq_nil
    intro e he srv
    rcases htl e he with
      ⟨_, _, rfl⟩ | ⟨_, _, rfl⟩ | ⟨_, _, _, _, rfl⟩ | rfl | ⟨_, rfl⟩ | ⟨_, rfl⟩ | rfl |
        ⟨_, _, rfl⟩ | rfl <;> simp
  rw [htr, dialsOf_append, h0, List.append_nil]

theorem dialsOf_handshake (lib : Lib) (client : Client) (env : CycleEnv)
    (h1 : ¬(env.access.2.isSome = true ∧ client.god.must = true))
    (h2 : (if env.access.1 = "" then client.serverAddr else env.access.1) ≠ "") :
    dialsOf (handshake lib client env).1 =
      [if env.access.1 = "" then client.serverAddr else env.access.1] := by
  cases hd : env.dial with
  | error derr =>
    have e : (handshake lib client env).1 = [Event.access,
        Event.dial (if env.access.1 = "" then client.serverAddr else env.access.1),
        Event.log "ERROR" "connect to server fail: ", Event.sleep 3] := by
      simp [handshake, conServer, h1, h2, hd]
    rw [e]; rfl
  | ok c =>
    cases ha : (authorize lib c client.myip client.authKey).2 with
    | error aerr =>
      have e : (handshake lib client env).1 = [Event.access,
          Event.dial (if env.access.1 = "" then client.serverAddr else env.access.1),
          Event.log "INFO" "connect to"] ++ (authorize lib c client.myip client.authKey).1 ++
          [Event.log "ERROR" "auth fail: ", Event.sleep 3] := by
        simp [handshake, conServer, h1, h2, hd, ha]
      rw [e, dialsOf_append, dialsOf_append, dialsOf_authorize]; rfl
    | ok g =>
      have e : (handshake lib client env).1 = [Event.access,
          Event.dial (if env.access.1 = "" then client.serverAddr else env.access.1),
          Event.log "INFO" "connect to"] ++ (authorize lib c client.myip client.authKey).1 := by
        simp [handshake, conServer, h1, h2, hd, ha]
      rw [e, dialsOf_append, dialsOf_authorize]; rfl

/-- C10 (amended): in the Resolving step, for every discovery result (address and
error), mandatory flag and static address: if discovery fails and is mandatory the
iteration only logs and sleeps 3 seconds, without dialing; otherwise exactly one
address is dialed, namely the discovery address whenever that is non-empty (whether
or not discovery also reported an error) and the static address when the discovery
address is empty and the static one is not; and when both are empty the iteration
only logs and sleeps 3 seconds, without dialing. -/
theorem resolving_step (lib : Lib) (ifceName : String) (client : Client) (env : CycleEnv) :
    (env.access.2.isSome = true ∧ client.god.must = true →
      cycle lib ifceName client env =
        (client, [Event.access, Event.log "ERROR" "get server address fail: ", Event.sleep 3],
          true)) ∧
    (¬(env.access.2.isSome = true ∧ client.god.must = true) →
      (env.access.1 ≠ "" →
        dialsOf (cycle lib ifceName client env).2.1 = [env.access.1]) ∧
      (env.access.1 = "" → client.serverAddr ≠ "" →
        dialsOf (cycle lib ifceName client env).2.1 = [client.serverAddr]) ∧
      (env.access.1 = "" → client.serverAddr = "" →
        cycle lib ifceName client env =
          (client, [Event.access, Event.log "ERROR" "empty server", Event.sleep 3], true))) := by
  refine ⟨fun h1 => ?_, fun h1 => ⟨fun hne => ?_, fun he hne => ?_, fun he hs => ?_⟩⟩
  · have hn : (handshake lib client env).2 = none := by simp [handshake, conServer, h1]
    rw [cycle_abandoned lib ifceName client env hn]
    simp [handshake, conServer, h1]
  · have h2 : (if env.access.1 = "" then client.serverAddr else env.access.1) ≠ "" := by
      rw [if_neg hne]; exact hne
    rw [dialsOf_cycle, dialsOf_handshake lib client env h1 h2, if_neg hne]
  · have h2 : (if env.access.1 = "" then client.serverAddr else env.access.1) ≠ "" := by
      rw [if_pos he]; exact hne
    rw [dialsOf_cycle, dialsOf_handshake lib client env h1 h2, if_pos he]
  · have hn : (handshake lib client env).2 = none := by simp [handshake, conServer, h1, he, hs]
    rw [cycle_abandoned lib ifceName client env hn]
    simp [handshake, conServer, h1, he, hs]

/-- C10 (counterexample): discovery is not mandatory and fails, handing back an
address together with its error; the address dialed is that one, not the statically
configured 203.0.113.7:9399. -/
theorem discovery_error_with_address_is_dialed :
    (staleDiscoveryEnv 1 0).access.2.isSome = true ∧
    exampleClient.god.must = false ∧
    exampleClient.serverAddr = "203.0.113.7:9399" ∧
    dialsOf (cycle (exampleLib .linux) "tun0" exampleClient (staleDiscoveryEnv 1 0)).2.1 =
      ["198.51.100.9:9399"] :=
  ⟨rfl, rfl, rfl, rfl⟩

/-! ## Properties of the session workers -/

theorem step_keeps_heartbeat_blocked (s s' : Session) (st : Step)
    (hinv : s.heartbeat = .send ∧ s.snd = .exited ∧ 1 ≤ s.wg ∧ (s.rcv = .decode → 2 ≤ s.wg))
    (h : s.step st = some s') :
    s'.heartbeat = .send ∧ s'.snd = .exited ∧ 1 ≤ s'.wg ∧ (s'.rcv = .decode → 2 ≤ s'.wg) := by
  obtain ⟨h1, h2, h3, h4⟩ := hinv
  cases st <;> simp only [Session.step] at h <;> split at h <;>
    simp only [Option.some.injEq, reduceCtorEq] at h <;>
    (try subst h) <;> (simp_all; try omega)

theorem run_keeps_heartbeat_blocked (steps : List Step) :
    ∀ s s' : Session,
      (s.heartbeat = .send ∧ s.snd = .exited ∧ 1 ≤ s.wg ∧ (s.rcv = .decode → 2 ≤ s.wg)) →
      Session.run s steps = some s' →
      s'.heartbeat = .send ∧ s'.snd = .exited ∧ 1 ≤ s'.wg ∧ (s'.rcv = .decode → 2 ≤ s'.wg) := by
  induction steps with
  | nil =>
    intro s s' hinv h
    simp only [Session.run, Option.some.injEq] at h
    subst h
    exact hinv
  | cons st rest ih =>
    intro s s' hinv h
    simp only [Session.run] at h
    cases hst : s.step st with
    | none => rw [hst] at h; simp at h
    | some s1 =>
      rw [hst] at h
      exact ih s1 s' (step_keeps_heartbeat_blocked s s1 st hinv hst) h

/-- C7 (the code at the failing schedule): the heartbeat's timer fires and `snd`
takes the heartbeat frame; while `snd` is in `conn.Write` the timer fires again and
`heartbeat` reaches the send of line 222; then the write fails and `snd` exits,
closing `stop` and the connection.  From that state on, whatever the goroutines do,
`heartbeat` stays in that send (it never reads `stop`), the counter of the wait
group never reaches zero, and `wg.Wait()` never returns. -/
theorem heartbeat_blocked_after_sender_exit :
    ∃ s, Session.run (Session.start .read) [.timer, .heartbeatSent, .timer, .writeErr] = some s ∧
      s.snd = .exited ∧ s.stopClosed = true ∧ s.connClosed = true ∧ s.heartbeat = .send ∧
      ∀ (steps : List Step) (s' : Session), Session.run s steps = some s' →
        s'.heartbeat = .send ∧ s'.waitReturns = false := by
  refine ⟨(⟨.send, .exited, .decode, .read, true, true, 2⟩ : Session),
    rfl, rfl, rfl, rfl, rfl, ?_⟩
  intro steps s' h
  obtain ⟨h1, _, h3, _⟩ := run_keeps_heartbeat_blocked steps _ s'
    ⟨rfl, rfl, by decide, fun _ => by decide⟩ h
  refine ⟨h1, ?_⟩
  simp only [Session.waitReturns, beq_eq_false_iff_ne, ne_eq]
  omega

end Gtun
